import Mathlib

/-!
Shallow embedding of the projection / navigation-graph / interaction core of
the `ebgeo_360` calibration interface, together with proofs checking the
natural-language specification against the code.

Source files embedded here:
- `src/public/calibration/js/projector.js`  (`StreetViewProjector`)
- `src/public/calibration/js/hit-tester.js` (`StreetViewHitTester`)
- `src/public/calibration/js/constants.js`  (`NAV_CONSTANTS`)
- the navigation orchestrator and central state module (`handleClick`,
  `update`, `updateGroundCursor`, `findNearestTargetToCursor`,
  `projectTarget`, `projectFromOverride`, `getEffectiveOverride`, ...)

JavaScript numbers are modelled as real numbers (`ℝ`); `null`-able results
are modelled with `Option`.  Division by zero in `ℝ` is Lean's `x / 0 = 0`
convention; theorems that depend on a denominator carry explicit
non-degeneracy hypotheses matching the geometric preconditions.
-/

namespace EBGeo

noncomputable section

open Real

/-! ## Constants (`constants.js`, `NAV_CONSTANTS`) -/

/-- NAV_CONSTANTS.FOV_MARGIN -/
def FOV_MARGIN : ℝ := 5

/-- NAV_CONSTANTS.DEFAULT_CAMERA_HEIGHT -/
def DEFAULT_CAMERA_HEIGHT : ℝ := 2.5

/-- NAV_CONSTANTS.HIT_RADIUS_MULTIPLIER -/
def HIT_RADIUS_MULTIPLIER : ℝ := 1.0

/-- NAV_CONSTANTS.MARKER_WORLD_RADIUS -/
def MARKER_WORLD_RADIUS : ℝ := 1.8

/-- NAV_CONSTANTS.MARKER_MIN_SIZE -/
def MARKER_MIN_SIZE : ℝ := 8

/-- NAV_CONSTANTS.MARKER_MAX_SIZE -/
def MARKER_MAX_SIZE : ℝ := 120

/-- NAV_CONSTANTS.HIDE_ARROWS_FOV -/
def HIDE_ARROWS_FOV : ℝ := 35

/-- NAV_CONSTANTS.SCALE_ARROWS_FOV -/
def SCALE_ARROWS_FOV : ℝ := 45

/-! ## Coordinate projector (`projector.js`, `StreetViewProjector`)

The projector's mutable fields (`canvasWidth`, `canvasHeight`, camera
height from `cameraConfig`) are passed as explicit parameters `W`, `H`,
`cameraHeight`. -/

/-- Result record of `metersToScreen` (projector.js line 70). -/
structure ScreenResult where
  screenX : ℝ
  screenY : ℝ
  distance : ℝ
  visible : Bool

/-- projector.js lines 72-74: `rotatedX = x * cosYaw - z * sinYaw`. -/
def camRotatedX (x z yaw : ℝ) : ℝ := x * Real.cos yaw - z * Real.sin yaw

/-- projector.js line 75: `rotatedZ = x * sinYaw + z * cosYaw`. -/
def camRotatedZ (x z yaw : ℝ) : ℝ := x * Real.sin yaw + z * Real.cos yaw

/-- projector.js line 88: `rotatedY = y * cos(-pitch) - rotatedZ * sin(-pitch)`. -/
def camRotatedY (x y z yaw pitch : ℝ) : ℝ :=
  y * Real.cos (-pitch) - camRotatedZ x z yaw * Real.sin (-pitch)

/-- projector.js line 89: `finalZ = y * sin(-pitch) + rotatedZ * cos(-pitch)`. -/
def camFinalZ (x y z yaw pitch : ℝ) : ℝ :=
  y * Real.sin (-pitch) + camRotatedZ x z yaw * Real.cos (-pitch)

/-- projector.js lines 92-94: `tan(fovRad / 2)` with `fovRad = fov * π / 180`. -/
def tanHalfFov (fov : ℝ) : ℝ := Real.tan (fov * π / 180 / 2)

/-- projector.js line 83: `distance = sqrt(x*x + y*y + z*z)`. -/
def dist3 (x y z : ℝ) : ℝ := Real.sqrt (x * x + y * y + z * z)

/-- projector.js line 97: `ndcX = rotatedX / (-finalZ * tanHalfFov * aspectRatio)`
with `aspectRatio = canvasWidth / canvasHeight`. -/
def projNdcX (W H x y z yaw pitch fov : ℝ) : ℝ :=
  camRotatedX x z yaw / (-camFinalZ x y z yaw pitch * tanHalfFov fov * (W / H))

/-- projector.js line 98: `ndcY = rotatedY / (-finalZ * tanHalfFov)`. -/
def projNdcY (W H x y z yaw pitch fov : ℝ) : ℝ :=
  camRotatedY x y z yaw pitch / (-camFinalZ x y z yaw pitch * tanHalfFov fov)

/-- `StreetViewProjector.metersToScreen` (projector.js lines 70-111).
Rotates the world point by yaw, rejects points behind the camera
(`rotatedZ >= 0`) with a zeroed result, applies pitch, perspective-divides,
rejects points outside the FOV margin (`margin = FOV_MARGIN / fov`), and
maps NDC to pixels. -/
def metersToScreen (W H x y z yaw pitch fov : ℝ) : ScreenResult :=
  if 0 ≤ camRotatedZ x z yaw then ⟨0, 0, 0, false⟩
  else if 1 + FOV_MARGIN / fov < |projNdcX W H x y z yaw pitch fov| ∨
          1 + FOV_MARGIN / fov < |projNdcY W H x y z yaw pitch fov| then
    ⟨0, 0, dist3 x y z, false⟩
  else
    ⟨(projNdcX W H x y z yaw pitch fov + 1) * 0.5 * W,
     (1 - projNdcY W H x y z yaw pitch fov) * 0.5 * H, dist3 x y z, true⟩

/-- projector.js lines 134-144: vertical ray component after the inverse
pitch rotation (`rayY = tempY`); the later yaw rotation leaves it unchanged,
so this is the value tested by `if (rayY >= 0)`. -/
def groundRayY (H sy pitch fov : ℝ) : ℝ :=
  (1 - sy / H * 2) * tanHalfFov fov * Real.cos pitch - (-1) * Real.sin pitch

/-- projector.js line 142: `tempZ1 = rayY * sinPitch + rayZ * cosPitch`. -/
def groundRayZ1 (H sy pitch fov : ℝ) : ℝ :=
  (1 - sy / H * 2) * tanHalfFov fov * Real.sin pitch + (-1) * Real.cos pitch

/-- projector.js line 149: `tempX = rayX * cosYaw + rayZ * sinYaw`. -/
def groundRayX (W H sx sy yaw pitch fov : ℝ) : ℝ :=
  (sx / W * 2 - 1) * tanHalfFov fov * (W / H) * Real.cos yaw +
    groundRayZ1 H sy pitch fov * Real.sin yaw

/-- projector.js line 150: `tempZ2 = -rayX * sinYaw + rayZ * cosYaw`. -/
def groundRayZ (W H sx sy yaw pitch fov : ℝ) : ℝ :=
  -((sx / W * 2 - 1) * tanHalfFov fov * (W / H)) * Real.sin yaw +
    groundRayZ1 H sy pitch fov * Real.cos yaw

/-- `StreetViewProjector.screenToGround` (projector.js lines 122-170).
Inverse-projects a pixel into a camera-space ray, de-rotates by inverse
pitch then inverse yaw, and intersects the plane `y = -cameraHeight`;
`none` when the ray points upward (`rayY >= 0`) or `t < 0`. -/
def screenToGround (W H cameraHeight sx sy yaw pitch fov : ℝ) : Option (ℝ × ℝ) :=
  if 0 ≤ groundRayY H sy pitch fov then none
  else if -cameraHeight / groundRayY H sy pitch fov < 0 then none
  else
    some (groundRayX W H sx sy yaw pitch fov * (-cameraHeight / groundRayY H sy pitch fov),
      groundRayZ W H sx sy yaw pitch fov * (-cameraHeight / groundRayY H sy pitch fov))

/-- `StreetViewProjector.lonLatToMeters` (projector.js lines 50-58):
equirectangular flat-earth approximation, `x` east, `z` south. -/
def lonLatToMeters (lon lat cameraLon cameraLat : ℝ) : ℝ × ℝ :=
  let R : ℝ := 6371000
  let dLon := (lon - cameraLon) * π / 180
  let midLat := cameraLat * π / 180
  let dLat := (lat - cameraLat) * π / 180
  (dLon * R * Real.cos midLat, -dLat * R)

/-! ## C1: the `distance` field of `metersToScreen` -/

/-- C1 (counterexample): the point `(0,0,1)` with `yaw = 0` is behind the
camera (`rotatedZ = 1 ≥ 0`), and `metersToScreen` returns `distance = 0`
from that early branch — not the 3D Euclidean distance `√1 = 1`.  This
refutes the claim that `distance` is always the Euclidean distance even for
points rejected as behind the camera. -/
theorem C1_distance_counterexample :
    ¬ ((metersToScreen 800 600 0 0 1 0 0 75).distance
        = Real.sqrt (0 * 0 + 0 * 0 + 1 * 1)) := by
  have hz : camRotatedZ 0 1 0 = 1 := by
    simp [camRotatedZ]
  have hd : (metersToScreen 800 600 0 0 1 0 0 75).distance = 0 := by
    rw [metersToScreen, hz, if_pos (by norm_num : (0:ℝ) ≤ 1)]
  rw [hd, show (0 * 0 + 0 * 0 + 1 * 1 : ℝ) = 1 by norm_num, Real.sqrt_one]
  norm_num

/-- C1 (amended): for every point strictly in front of the camera after the
yaw rotation (`rotatedZ < 0`), the `distance` field of `metersToScreen`
equals the 3D Euclidean distance `√(x² + y² + z²)`, in both the
`visible = true` case and the FOV-margin-rejected `visible = false` case;
points behind the camera instead get the sentinel `distance = 0`. -/
theorem C1_distance_front (W H x y z yaw pitch fov : ℝ)
    (hfront : camRotatedZ x z yaw < 0) :
    (metersToScreen W H x y z yaw pitch fov).distance
      = Real.sqrt (x * x + y * y + z * z) := by
  rw [metersToScreen, if_neg (not_le.mpr hfront)]
  split_ifs <;> rfl

/-- C1 witness: the amended theorem applied at the concrete in-front point
`(0, 0, -1)` with `yaw = 0`. -/
theorem C1_distance_front_witness :
    (metersToScreen 800 600 0 0 (-1) 0 0 75).distance
      = Real.sqrt (0 * 0 + 0 * 0 + (-1) * (-1)) :=
  C1_distance_front 800 600 0 0 (-1) 0 0 75 (by simp [camRotatedZ])

/-! ## C10: null-analysis of `screenToGround` -/

/-- C10: with a strictly positive camera height, `screenToGround` returns a
ground point exactly when the fully de-rotated ray's Y component is strictly
negative, and in that case the plane-intersection parameter
`t = -cameraHeight / rayY` is strictly positive, so the `t < 0` error branch
is unreachable. -/
theorem C10_screenToGround_hit_iff (W H h sx sy yaw pitch fov : ℝ) (hh : 0 < h) :
    (screenToGround W H h sx sy yaw pitch fov ≠ none ↔
       groundRayY H sy pitch fov < 0) ∧
    (groundRayY H sy pitch fov < 0 → 0 < -h / groundRayY H sy pitch fov) := by
  have hT : ∀ hray : groundRayY H sy pitch fov < 0, 0 < -h / groundRayY H sy pitch fov :=
    fun hray => div_pos_iff.mpr (Or.inr ⟨by linarith, hray⟩)
  refine ⟨⟨fun hne => ?_, fun hray => ?_⟩, hT⟩
  · by_contra hge
    push_neg at hge
    rw [screenToGround, if_pos hge] at hne
    exact hne rfl
  · rw [screenToGround, if_neg (not_le.mpr hray), if_neg (not_lt.mpr (hT hray).le)]
    exact Option.some_ne_none _

/-- C10 witness: concrete screen point `(400, 600)` (bottom of a 800×600
canvas) with `pitch = 0`, `fov = 90`; the de-rotated ray Y is `-1 < 0` and
`screenToGround` hits the ground with `t = 2.5 > 0`. -/
theorem C10_screenToGround_hit_iff_witness :
    screenToGround 800 600 2.5 400 600 0 0 90 ≠ none ∧
    0 < -2.5 / groundRayY 600 600 0 90 := by
  have htan : tanHalfFov 90 = 1 := by
    rw [tanHalfFov, show (90 : ℝ) * π / 180 / 2 = π / 4 by ring, Real.tan_pi_div_four]
  have hray : groundRayY 600 600 0 90 < 0 := by
    rw [groundRayY, htan]
    norm_num
  exact ⟨((C10_screenToGround_hit_iff 800 600 2.5 400 600 0 0 90 (by norm_num)).1).mpr hray,
    (C10_screenToGround_hit_iff 800 600 2.5 400 600 0 0 90 (by norm_num)).2 hray⟩

/-! ## C4: round trip `metersToScreen` then `screenToGround` -/

/-- Backward recovery of NDC Y from the projected screen Y coordinate. -/
lemma ndcY_recovery (H q : ℝ) (hH : H ≠ 0) : 1 - (1 - q) * 0.5 * H / H * 2 = q := by
  field_simp
  ring

/-- Backward recovery of NDC X from the projected screen X coordinate. -/
lemma ndcX_recovery (W q : ℝ) (hW : W ≠ 0) : (q + 1) * 0.5 * W / W * 2 - 1 = q := by
  field_simp
  ring

/-- NDC Y times `tanHalfFov` gives the camera-space ratio `rotatedY / (-finalZ)`. -/
lemma projNdcY_mul_tan (W H x y z yaw pitch fov : ℝ) (ht : tanHalfFov fov ≠ 0) :
    projNdcY W H x y z yaw pitch fov * tanHalfFov fov
      = camRotatedY x y z yaw pitch / (-camFinalZ x y z yaw pitch) := by
  rw [projNdcY]
  rcases eq_or_ne (camFinalZ x y z yaw pitch) 0 with hfz | hfz
  · simp [hfz]
  · field_simp
    ring

/-- NDC X times `tanHalfFov` times the aspect ratio gives `rotatedX / (-finalZ)`. -/
lemma projNdcX_mul_tan (W H x y z yaw pitch fov : ℝ) (ht : tanHalfFov fov ≠ 0)
    (hW : W ≠ 0) (hH : H ≠ 0) :
    projNdcX W H x y z yaw pitch fov * tanHalfFov fov * (W / H)
      = camRotatedX x z yaw / (-camFinalZ x y z yaw pitch) := by
  rw [projNdcX]
  rcases eq_or_ne (camFinalZ x y z yaw pitch) 0 with hfz | hfz
  · simp [hfz]
  · field_simp
    ring

/-- De-rotated ray Y at the projected screen point equals `y / (-finalZ)`. -/
lemma groundRayY_of_proj (W H x y z yaw pitch fov : ℝ) (hH : H ≠ 0)
    (ht : tanHalfFov fov ≠ 0) (hfz : camFinalZ x y z yaw pitch ≠ 0) :
    groundRayY H ((1 - projNdcY W H x y z yaw pitch fov) * 0.5 * H) pitch fov
      = y / (-camFinalZ x y z yaw pitch) := by
  have hne : -camFinalZ x y z yaw pitch ≠ 0 := neg_ne_zero.mpr hfz
  have key : camRotatedY x y z yaw pitch * Real.cos pitch
      + Real.sin pitch * -camFinalZ x y z yaw pitch = y := by
    rw [camRotatedY, camFinalZ, Real.cos_neg, Real.sin_neg]
    linear_combination y * Real.sin_sq_add_cos_sq pitch
  have expand : camRotatedY x y z yaw pitch / -camFinalZ x y z yaw pitch * Real.cos pitch
      - (-1) * Real.sin pitch
      = (camRotatedY x y z yaw pitch * Real.cos pitch
          + Real.sin pitch * -camFinalZ x y z yaw pitch) / -camFinalZ x y z yaw pitch := by
    field_simp
    ring
  rw [groundRayY, ndcY_recovery H _ hH, projNdcY_mul_tan W H x y z yaw pitch fov ht,
    expand, key]

/-- De-rotated (pre-yaw) ray Z at the projected screen point equals
`rotatedZ / (-finalZ)`. -/
lemma groundRayZ1_of_proj (W H x y z yaw pitch fov : ℝ) (hH : H ≠ 0)
    (ht : tanHalfFov fov ≠ 0) (hfz : camFinalZ x y z yaw pitch ≠ 0) :
    groundRayZ1 H ((1 - projNdcY W H x y z yaw pitch fov) * 0.5 * H) pitch fov
      = camRotatedZ x z yaw / (-camFinalZ x y z yaw pitch) := by
  have hne : -camFinalZ x y z yaw pitch ≠ 0 := neg_ne_zero.mpr hfz
  have key : camRotatedY x y z yaw pitch * Real.sin pitch
      - Real.cos pitch * -camFinalZ x y z yaw pitch = camRotatedZ x z yaw := by
    rw [camRotatedY, camFinalZ, Real.cos_neg, Real.sin_neg]
    linear_combination camRotatedZ x z yaw * Real.sin_sq_add_cos_sq pitch
  have expand : camRotatedY x y z yaw pitch / -camFinalZ x y z yaw pitch * Real.sin pitch
      + (-1) * Real.cos pitch
      = (camRotatedY x y z yaw pitch * Real.sin pitch
          - Real.cos pitch * -camFinalZ x y z yaw pitch) / -camFinalZ x y z yaw pitch := by
    field_simp
  rw [groundRayZ1, ndcY_recovery H _ hH, projNdcY_mul_tan W H x y z yaw pitch fov ht,
    expand, key]

/-- De-rotated ray X at the projected screen point equals `x / (-finalZ)`. -/
lemma groundRayX_of_proj (W H x y z yaw pitch fov : ℝ) (hW : W ≠ 0) (hH : H ≠ 0)
    (ht : tanHalfFov fov ≠ 0) (hfz : camFinalZ x y z yaw pitch ≠ 0) :
    groundRayX W H ((projNdcX W H x y z yaw pitch fov + 1) * 0.5 * W)
        ((1 - projNdcY W H x y z yaw pitch fov) * 0.5 * H) yaw pitch fov
      = x / (-camFinalZ x y z yaw pitch) := by
  have hne : -camFinalZ x y z yaw pitch ≠ 0 := neg_ne_zero.mpr hfz
  have key : camRotatedX x z yaw * Real.cos yaw + camRotatedZ x z yaw * Real.sin yaw
      = x := by
    rw [camRotatedX, camRotatedZ]
    linear_combination x * Real.sin_sq_add_cos_sq yaw
  have expand : camRotatedX x z yaw / -camFinalZ x y z yaw pitch * Real.cos yaw
      + camRotatedZ x z yaw / -camFinalZ x y z yaw pitch * Real.sin yaw
      = (camRotatedX x z yaw * Real.cos yaw + camRotatedZ x z yaw * Real.sin yaw)
          / -camFinalZ x y z yaw pitch := by
    field_simp
  rw [groundRayX, ndcX_recovery W _ hW,
    projNdcX_mul_tan W H x y z yaw pitch fov ht hW hH,
    groundRayZ1_of_proj W H x y z yaw pitch fov hH ht hfz, expand, key]

/-- De-rotated ray Z at the projected screen point equals `z / (-finalZ)`. -/
lemma groundRayZ_of_proj (W H x y z yaw pitch fov : ℝ) (hW : W ≠ 0) (hH : H ≠ 0)
    (ht : tanHalfFov fov ≠ 0) (hfz : camFinalZ x y z yaw pitch ≠ 0) :
    groundRayZ W H ((projNdcX W H x y z yaw pitch fov + 1) * 0.5 * W)
        ((1 - projNdcY W H x y z yaw pitch fov) * 0.5 * H) yaw pitch fov
      = z / (-camFinalZ x y z yaw pitch) := by
  have hne : -camFinalZ x y z yaw pitch ≠ 0 := neg_ne_zero.mpr hfz
  have key : -(camRotatedX x z yaw * Real.sin yaw) + camRotatedZ x z yaw * Real.cos yaw
      = z := by
    rw [camRotatedX, camRotatedZ]
    linear_combination z * Real.sin_sq_add_cos_sq yaw
  have expand : -(camRotatedX x z yaw / -camFinalZ x y z yaw pitch) * Real.sin yaw
      + camRotatedZ x z yaw / -camFinalZ x y z yaw pitch * Real.cos yaw
      = (-(camRotatedX x z yaw * Real.sin yaw) + camRotatedZ x z yaw * Real.cos yaw)
          / -camFinalZ x y z yaw pitch := by
    field_simp
    ring
  rw [groundRayZ, ndcX_recovery W _ hW,
    projNdcX_mul_tan W H x y z yaw pitch fov ht hW hH,
    groundRayZ1_of_proj W H x y z yaw pitch fov hH ht hfz, expand, key]

/-- C4 (counterexample to the claim as stated): the ground point
`(x, z) = (0, -1)` has `z < 0`, yet with `yaw = π` (camera turned around)
`metersToScreen` rejects it as behind the camera and returns the sentinel
screen point `(0, 0)`, and `screenToGround` at that sentinel returns `none`,
not `(0, -1)` — so the round trip does not recover `(x, z)` for every
`(yaw, pitch, fov)`. -/
theorem C4_roundtrip_counterexample :
    (-1 : ℝ) < 0 ∧
    screenToGround 600 600 2.5 (metersToScreen 600 600 0 (-2.5) (-1) π 0 90).screenX
        (metersToScreen 600 600 0 (-2.5) (-1) π 0 90).screenY π 0 90
      ≠ some (0, -1) := by
  refine ⟨by norm_num, ?_⟩
  have hrotz : camRotatedZ 0 (-1) π = 1 := by
    simp [camRotatedZ]
  have hms : metersToScreen 600 600 0 (-2.5) (-1) π 0 90 = ⟨0, 0, 0, false⟩ := by
    rw [metersToScreen, hrotz, if_pos (by norm_num : (0:ℝ) ≤ 1)]
  rw [hms]
  have htan : tanHalfFov 90 = 1 := by
    rw [tanHalfFov, show (90 : ℝ) * π / 180 / 2 = π / 4 by ring, Real.tan_pi_div_four]
  have hray : groundRayY 600 0 0 90 = 1 := by
    rw [groundRayY, htan]
    norm_num
  rw [screenToGround, hray, if_pos (by norm_num : (0:ℝ) ≤ 1)]
  exact (Option.some_ne_none _).symm

/-- C4 (amended): the round trip is exact over the reals once the point is
actually projected to the screen: for every ground point `(x, z)` placed at
`y = -cameraHeight`, if `metersToScreen` reports `visible = true` and the
pitched camera-space depth `finalZ` is negative (point in front of the
pitched camera), then `screenToGround` at the projected pixel recovers
exactly `(x, z)`.  Without those conditions the claim fails (see the
counterexample). -/
theorem C4_roundtrip_exact (W H h x z yaw pitch fov : ℝ)
    (hW : 0 < W) (hH : 0 < H) (hh : 0 < h)
    (ht : tanHalfFov fov ≠ 0)
    (hfz : camFinalZ x (-h) z yaw pitch < 0)
    (hvis : (metersToScreen W H x (-h) z yaw pitch fov).visible = true) :
    screenToGround W H h (metersToScreen W H x (-h) z yaw pitch fov).screenX
      (metersToScreen W H x (-h) z yaw pitch fov).screenY yaw pitch fov
      = some (x, z) := by
  have hbehind : ¬ (0 ≤ camRotatedZ x z yaw) := by
    intro hge
    rw [metersToScreen, if_pos hge] at hvis
    exact Bool.false_ne_true hvis
  have hmargin : ¬ (1 + FOV_MARGIN / fov < |projNdcX W H x (-h) z yaw pitch fov| ∨
      1 + FOV_MARGIN / fov < |projNdcY W H x (-h) z yaw pitch fov|) := by
    intro hor
    rw [metersToScreen, if_neg hbehind, if_pos hor] at hvis
    exact Bool.false_ne_true hvis
  have hsx : (metersToScreen W H x (-h) z yaw pitch fov).screenX
      = (projNdcX W H x (-h) z yaw pitch fov + 1) * 0.5 * W := by
    rw [metersToScreen, if_neg hbehind, if_neg hmargin]
  have hsy : (metersToScreen W H x (-h) z yaw pitch fov).screenY
      = (1 - projNdcY W H x (-h) z yaw pitch fov) * 0.5 * H := by
    rw [metersToScreen, if_neg hbehind, if_neg hmargin]
  have hfzne : camFinalZ x (-h) z yaw pitch ≠ 0 := ne_of_lt hfz
  have hnegfz : 0 < -camFinalZ x (-h) z yaw pitch := by linarith
  have hrayY := groundRayY_of_proj W H x (-h) z yaw pitch fov hH.ne' ht hfzne
  have hrayX := groundRayX_of_proj W H x (-h) z yaw pitch fov hW.ne' hH.ne' ht hfzne
  have hrayZ := groundRayZ_of_proj W H x (-h) z yaw pitch fov hW.ne' hH.ne' ht hfzne
  have hraylt : groundRayY H ((1 - projNdcY W H x (-h) z yaw pitch fov) * 0.5 * H) pitch fov
      < 0 := by
    rw [hrayY]
    exact div_neg_of_neg_of_pos (by linarith) hnegfz
  have htpar : -h / groundRayY H ((1 - projNdcY W H x (-h) z yaw pitch fov) * 0.5 * H) pitch fov
      = -camFinalZ x (-h) z yaw pitch := by
    rw [hrayY, div_div_eq_mul_div]
    exact mul_div_cancel_left₀ _ (by linarith : (-h : ℝ) ≠ 0)
  rw [hsx, hsy, screenToGround, if_neg (not_le.mpr hraylt), htpar,
    if_neg (not_lt.mpr hnegfz.le), hrayX, hrayZ,
    div_mul_cancel₀ x (neg_ne_zero.mpr hfzne), div_mul_cancel₀ z (neg_ne_zero.mpr hfzne)]

/-- C4 witness: the amended round-trip theorem at the concrete in-front
point `(x, z) = (0, -10)` with `yaw = 0`, `pitch = 0`, `fov = 90`,
camera height `2.5`, canvas `600×600`. -/
theorem C4_roundtrip_exact_witness :
    screenToGround 600 600 2.5 (metersToScreen 600 600 0 (-2.5) (-10) 0 0 90).screenX
      (metersToScreen 600 600 0 (-2.5) (-10) 0 0 90).screenY 0 0 90
      = some (0, -10) := by
  have htan : tanHalfFov 90 = 1 := by
    rw [tanHalfFov, show (90 : ℝ) * π / 180 / 2 = π / 4 by ring, Real.tan_pi_div_four]
  have hrotz : camRotatedZ 0 (-10) 0 = -10 := by
    simp [camRotatedZ]
  have hfz : camFinalZ 0 (-2.5) (-10) 0 0 = -10 := by
    simp [camFinalZ, hrotz]
  have hrot : camRotatedY 0 (-2.5) (-10) 0 0 = -2.5 := by
    simp [camRotatedY, hrotz]
  have hndcX : projNdcX 600 600 0 (-2.5) (-10) 0 0 90 = 0 := by
    rw [projNdcX]
    simp [camRotatedX]
  have hndcY : projNdcY 600 600 0 (-2.5) (-10) 0 0 90 = -0.25 := by
    rw [projNdcY, hrot, hfz, htan]
    norm_num
  have hvis : (metersToScreen 600 600 0 (-2.5) (-10) 0 0 90).visible = true := by
    rw [metersToScreen, hrotz, if_neg (by norm_num : ¬ ((0:ℝ) ≤ -10)),
      if_neg]
    rw [hndcX, hndcY, FOV_MARGIN]
    rw [not_or]
    constructor <;> rw [not_lt] <;> rw [abs_le] <;> constructor <;> norm_num
  exact C4_roundtrip_exact 600 600 2.5 0 (-10) 0 0 90 (by norm_num) (by norm_num)
    (by norm_num) (by rw [htan]; norm_num) (by rw [hfz]; norm_num) hvis

/-! ## C8: visibility is monotone in `fov` -/

/-- Chord inequality from concavity of `sin` on `[0, π]`:
`s * sin S ≤ S * sin s` for `0 < s ≤ S ≤ π`. -/
lemma mul_sin_le_mul_sin {s S : ℝ} (hs : 0 < s) (hsS : s ≤ S) (hS : S ≤ π) :
    s * Real.sin S ≤ S * Real.sin s := by
  have hSpos : 0 < S := lt_of_lt_of_le hs hsS
  have h0mem : (0 : ℝ) ∈ Set.Icc (0 : ℝ) π := ⟨le_refl 0, Real.pi_pos.le⟩
  have hmem : S ∈ Set.Icc (0 : ℝ) π := ⟨hSpos.le, hS⟩
  have ha : (0 : ℝ) ≤ 1 - s / S := by
    rw [sub_nonneg]
    exact (div_le_one hSpos).mpr hsS
  have hb : (0 : ℝ) ≤ s / S := (div_pos hs hSpos).le
  have hab : (1 - s / S) + s / S = 1 := by ring
  have hcc := strictConcaveOn_sin_Icc.concaveOn.2 h0mem hmem ha hb hab
  simp only [smul_eq_mul, Real.sin_zero, mul_zero, zero_add] at hcc
  rw [div_mul_cancel₀ s hSpos.ne'] at hcc
  calc s * Real.sin S = S * (s / S * Real.sin S) := by field_simp
  _ ≤ S * Real.sin s := mul_le_mul_of_nonneg_left hcc hSpos.le

/-- Monotonicity of `tan u / u` on `(0, π/2)`, in cross-multiplied form. -/
lemma mul_tan_le_mul_tan {u1 u2 : ℝ} (h1 : 0 < u1) (h12 : u1 < u2) (h2 : u2 < π / 2) :
    u2 * Real.tan u1 ≤ u1 * Real.tan u2 := by
  have hpi := Real.pi_pos
  have hc1 : 0 < Real.cos u1 :=
    Real.cos_pos_of_mem_Ioo ⟨by linarith, by linarith⟩
  have hc2 : 0 < Real.cos u2 :=
    Real.cos_pos_of_mem_Ioo ⟨by linarith, h2⟩
  have key := mul_sin_le_mul_sin (s := u2 - u1) (S := u1 + u2)
    (by linarith) (by linarith) (by linarith)
  rw [Real.sin_add, Real.sin_sub] at key
  rw [Real.tan_eq_sin_div_cos, Real.tan_eq_sin_div_cos, mul_div_assoc', mul_div_assoc',
    div_le_div_iff hc1 hc2]
  nlinarith [key]

/-- The FOV-margin admission bound `tanHalfFov fov * (1 + FOV_MARGIN / fov)`
is monotone in `fov` on `(0, 180)`. -/
lemma tanHalfFov_margin_mono {f1 f2 : ℝ} (h1 : 0 < f1) (h12 : f1 < f2) (h2 : f2 < 180) :
    tanHalfFov f1 * (1 + FOV_MARGIN / f1) ≤ tanHalfFov f2 * (1 + FOV_MARGIN / f2) := by
  have hpi := Real.pi_pos
  have hf2 : 0 < f2 := h1.trans h12
  have hu1pos : 0 < f1 * π / 180 / 2 := by positivity
  have hu12 : f1 * π / 180 / 2 < f2 * π / 180 / 2 := by
    have := mul_lt_mul_of_pos_right h12 hpi
    linarith
  have hu2lt : f2 * π / 180 / 2 < π / 2 := by
    have := mul_lt_mul_of_pos_right h2 hpi
    linarith
  have htan1 : 0 ≤ Real.tan (f1 * π / 180 / 2) :=
    Real.tan_nonneg_of_nonneg_of_le_pi_div_two hu1pos.le (by linarith)
  have hA : Real.tan (f1 * π / 180 / 2) ≤ Real.tan (f2 * π / 180 / 2) :=
    (Real.tan_lt_tan_of_nonneg_of_lt_pi_div_two hu1pos.le hu2lt hu12).le
  have hB := mul_tan_le_mul_tan hu1pos hu12 hu2lt
  have hB' : f2 * Real.tan (f1 * π / 180 / 2) ≤ f1 * Real.tan (f2 * π / 180 / 2) := by
    have h360 : (0 : ℝ) < π / 360 := by positivity
    have hB2 : π / 360 * (f2 * Real.tan (f1 * π / 180 / 2))
        ≤ π / 360 * (f1 * Real.tan (f2 * π / 180 / 2)) := by
      calc π / 360 * (f2 * Real.tan (f1 * π / 180 / 2))
          = f2 * π / 180 / 2 * Real.tan (f1 * π / 180 / 2) := by ring
      _ ≤ f1 * π / 180 / 2 * Real.tan (f2 * π / 180 / 2) := hB
      _ = π / 360 * (f1 * Real.tan (f2 * π / 180 / 2)) := by ring
    exact le_of_mul_le_mul_left hB2 h360
  have h5 : 5 / f1 * Real.tan (f1 * π / 180 / 2) ≤ 5 / f2 * Real.tan (f2 * π / 180 / 2) := by
    rw [div_mul_eq_mul_div, div_mul_eq_mul_div, div_le_div_iff h1 hf2]
    nlinarith [hB']
  simp only [tanHalfFov, FOV_MARGIN]
  have e1 : Real.tan (f1 * π / 180 / 2) * (1 + 5 / f1)
      = Real.tan (f1 * π / 180 / 2) + 5 / f1 * Real.tan (f1 * π / 180 / 2) := by ring
  have e2 : Real.tan (f2 * π / 180 / 2) * (1 + 5 / f2)
      = Real.tan (f2 * π / 180 / 2) + 5 / f2 * Real.tan (f2 * π / 180 / 2) := by ring
  rw [e1, e2]
  linarith

/-- `tanHalfFov` is positive on the open interval `(0, 180)` degrees. -/
lemma tanHalfFov_pos {f : ℝ} (h0 : 0 < f) (h180 : f < 180) : 0 < tanHalfFov f := by
  have hpi := Real.pi_pos
  rw [tanHalfFov]
  apply Real.tan_pos_of_pos_of_lt_pi_div_two
  · positivity
  · nlinarith [mul_lt_mul_of_pos_right h180 hpi]

/-- Absolute NDC X as a constant over `tanHalfFov`. -/
lemma abs_projNdcX_eq (W H x y z yaw pitch fov : ℝ) (htf : 0 < tanHalfFov fov) :
    |projNdcX W H x y z yaw pitch fov|
      = |camRotatedX x z yaw| / (|camFinalZ x y z yaw pitch * (W / H)| * tanHalfFov fov) := by
  rw [projNdcX, abs_div]
  congr 1
  rw [show -camFinalZ x y z yaw pitch * tanHalfFov fov * (W / H)
      = -(camFinalZ x y z yaw pitch * (W / H)) * tanHalfFov fov by ring, abs_mul, abs_neg,
    abs_of_pos htf]

/-- Absolute NDC Y as a constant over `tanHalfFov`. -/
lemma abs_projNdcY_eq (W H x y z yaw pitch fov : ℝ) (htf : 0 < tanHalfFov fov) :
    |projNdcY W H x y z yaw pitch fov|
      = |camRotatedY x y z yaw pitch| / (|camFinalZ x y z yaw pitch| * tanHalfFov fov) := by
  rw [projNdcY, abs_div]
  congr 1
  rw [show -camFinalZ x y z yaw pitch * tanHalfFov fov
      = -camFinalZ x y z yaw pitch * tanHalfFov fov by ring, abs_mul, abs_neg,
    abs_of_pos htf]

/-- Transfer of the FOV-margin bound from `f1` to a larger `f2`. -/
lemma ndc_bound_mono {C D f1 f2 : ℝ} (hC : 0 ≤ C) (hD : 0 ≤ D)
    (h1 : 0 < f1) (h12 : f1 < f2) (h2 : f2 < 180)
    (hb : C / (D * tanHalfFov f1) ≤ 1 + FOV_MARGIN / f1) :
    C / (D * tanHalfFov f2) ≤ 1 + FOV_MARGIN / f2 := by
  have hf2 : 0 < f2 := h1.trans h12
  have ht1 : 0 < tanHalfFov f1 := tanHalfFov_pos h1 (h12.trans h2)
  have ht2 : 0 < tanHalfFov f2 := tanHalfFov_pos hf2 h2
  rcases eq_or_lt_of_le hD with hD0 | hDpos
  · rw [← hD0, zero_mul, div_zero, FOV_MARGIN]
    positivity
  · have key := tanHalfFov_margin_mono h1 h12 h2
    rw [div_le_iff (by positivity : (0:ℝ) < D * tanHalfFov f1)] at hb
    rw [div_le_iff (by positivity : (0:ℝ) < D * tanHalfFov f2)]
    have hmul := mul_le_mul_of_nonneg_left key hD
    nlinarith [hb, hmul]

/-- C8: for a fixed world point and fixed `(yaw, pitch)`, if `metersToScreen`
reports `visible = true` at `fov = f1` then it also reports `visible = true`
at every larger `f2` with `f1 < f2 < 180` (the valid FOV range): widening
the field of view never turns a visible point invisible.  The behind-camera
test does not depend on `fov`, the absolute NDC values scale as
`1 / tanHalfFov` (decreasing in `fov`), and the admission threshold
`1 + FOV_MARGIN / fov` times `tanHalfFov` is monotone. -/
theorem C8_visibility_monotone (W H x y z yaw pitch f1 f2 : ℝ)
    (h1 : 0 < f1) (h12 : f1 < f2) (h2 : f2 < 180)
    (hvis : (metersToScreen W H x y z yaw pitch f1).visible = true) :
    (metersToScreen W H x y z yaw pitch f2).visible = true := by
  have ht1 : 0 < tanHalfFov f1 := tanHalfFov_pos h1 (h12.trans h2)
  have ht2 : 0 < tanHalfFov f2 := tanHalfFov_pos (h1.trans h12) h2
  have hbehind : ¬ (0 ≤ camRotatedZ x z yaw) := by
    intro hge
    rw [metersToScreen, if_pos hge] at hvis
    exact Bool.false_ne_true hvis
  have hmargin1 : ¬ (1 + FOV_MARGIN / f1 < |projNdcX W H x y z yaw pitch f1| ∨
      1 + FOV_MARGIN / f1 < |projNdcY W H x y z yaw pitch f1|) := by
    intro hor
    rw [metersToScreen, if_neg hbehind, if_pos hor] at hvis
    exact Bool.false_ne_true hvis
  rw [not_or, not_lt, not_lt] at hmargin1
  obtain ⟨hx1, hy1⟩ := hmargin1
  rw [abs_projNdcX_eq W H x y z yaw pitch f1 ht1] at hx1
  rw [abs_projNdcY_eq W H x y z yaw pitch f1 ht1] at hy1
  rw [metersToScreen, if_neg hbehind, if_neg ?hm]
  case hm =>
    rw [not_or, not_lt, not_lt]
    constructor
    · rw [abs_projNdcX_eq W H x y z yaw pitch f2 ht2]
      exact ndc_bound_mono (abs_nonneg _) (abs_nonneg _) h1 h12 h2 hx1
    · rw [abs_projNdcY_eq W H x y z yaw pitch f2 ht2]
      exact ndc_bound_mono (abs_nonneg _) (abs_nonneg _) h1 h12 h2 hy1

/-- C8 witness: the point `(0, 0, -10)` straight ahead with `yaw = pitch = 0`
is visible at `fov = 90` and, by the theorem, at the wider `fov = 120`. -/
theorem C8_visibility_monotone_witness :
    (metersToScreen 800 600 0 0 (-10) 0 0 120).visible = true := by
  have hrotz : camRotatedZ 0 (-10) 0 = -10 := by
    simp [camRotatedZ]
  have hndcX : projNdcX 800 600 0 0 (-10) 0 0 90 = 0 := by
    rw [projNdcX]
    simp [camRotatedX]
  have hndcY : projNdcY 800 600 0 0 (-10) 0 0 90 = 0 := by
    rw [projNdcY]
    simp [camRotatedY, camRotatedZ]
  have hvis : (metersToScreen 800 600 0 0 (-10) 0 0 90).visible = true := by
    rw [metersToScreen, hrotz, if_neg (by norm_num : ¬ ((0:ℝ) ≤ -10)), if_neg]
    rw [hndcX, hndcY, FOV_MARGIN, abs_zero, not_or]
    constructor <;> rw [not_lt] <;> norm_num
  exact C8_visibility_monotone 800 600 0 0 (-10) 0 0 90 120
    (by norm_num) (by norm_num) (by norm_num) hvis

/-! ## Hit tester (`hit-tester.js`, `StreetViewHitTester`) -/

/-- ProjectedMarker record: the ephemeral per-frame screen-space marker built
by the orchestrator's projection functions and consumed by the hit tester and
renderer.  `mtype` is the `type` tag (`"navigation"` / `"nearby"`); the
calibration metadata fields default so hit-tester-only markers stay short. -/
structure Marker where
  id : String
  screenX : ℝ
  screenY : ℝ
  distance : ℝ
  radius : ℝ
  flattenY : ℝ
  mtype : String := ""
  isNext : Bool := false
  hasOverride : Bool := false
  isCalibrationSelected : Bool := false
  isHidden : Bool := false
  displayName : String := ""

/-- `StreetViewHitTester.setMarkers` (hit-tester.js lines 22-25): stores a
copy of the markers sorted near-to-far by `distance` (hit priority). -/
def setMarkers (markers : List Marker) : List Marker :=
  markers.insertionSort (fun a b => a.distance ≤ b.distance)

/-- `StreetViewHitTester.isPointInMarker` (hit-tester.js lines 72-86):
elliptical hit test with `hitRadius = radius * HIT_RADIUS_MULTIPLIER`,
`rx = hitRadius`, `ry = hitRadius * fy` and the JS falsy guard
`fy = flattenY || 1`. -/
def isPointInMarker (screenX screenY : ℝ) (marker : Marker) : Bool :=
  let hitRadius := marker.radius * HIT_RADIUS_MULTIPLIER
  let dx := screenX - marker.screenX
  let dy := screenY - marker.screenY
  let fy := if marker.flattenY = 0 then 1 else marker.flattenY
  let normX := dx / hitRadius
  let normY := dy / (hitRadius * fy)
  decide (normX * normX + normY * normY ≤ 1)

/-- `StreetViewHitTester.testPoint` (hit-tester.js lines 33-40): the first
marker of the stored (near-to-far sorted) list whose hit region contains the
point, or `none`.  `sorted` is the list previously stored by `setMarkers`. -/
def testPoint (sorted : List Marker) (screenX screenY : ℝ) : Option Marker :=
  sorted.find? (fun marker => isPointInMarker screenX screenY marker)

/-! ## C6: hit/draw consistency -/

/-- Concrete near marker for the C6 analysis. -/
def mkNear : Marker :=
  { id := "a", screenX := 0, screenY := 0, distance := 1, radius := 10, flattenY := 1 }

/-- Concrete far marker, concentric with `mkNear`. -/
def mkFar : Marker :=
  { id := "b", screenX := 0, screenY := 0, distance := 2, radius := 10, flattenY := 1 }

/-- Evaluation helper: both concrete markers contain the origin. -/
lemma isPointInMarker_mk (m : Marker) (hr : m.radius = 10) (hf : m.flattenY = 1)
    (hx : m.screenX = 0) (hy : m.screenY = 0) : isPointInMarker 0 0 m = true := by
  rw [isPointInMarker, hr, hf, hx, hy, HIT_RADIUS_MULTIPLIER]
  norm_num

/-- Evaluation helper: the two-marker list sorts with the near marker first. -/
lemma setMarkers_mk : setMarkers [mkNear, mkFar] = [mkNear, mkFar] := by
  rw [setMarkers]
  show List.orderedInsert _ mkNear (List.orderedInsert _ mkFar []) = _
  rw [List.orderedInsert, List.orderedInsert, if_pos]
  show mkNear.distance ≤ mkFar.distance
  rw [show mkNear.distance = 1 from rfl, show mkFar.distance = 2 from rfl]
  norm_num

/-- C6 (counterexample): the origin lies strictly inside the rendered ellipse
of the far marker `mkFar` — `(dx/r)² + (dy/(r·flattenY))² = 0 < 1` — yet
`testPoint` reports the overlapping nearer marker `mkNear`, not `mkFar`:
near-to-far priority means a point inside a marker's ellipse is not
necessarily reported as hitting that marker. -/
theorem C6_hit_counterexample :
    ((0 - mkFar.screenX) / mkFar.radius) ^ 2
        + ((0 - mkFar.screenY) / (mkFar.radius * mkFar.flattenY)) ^ 2 < 1 ∧
    testPoint (setMarkers [mkNear, mkFar]) 0 0 = some mkNear ∧
    mkNear ≠ mkFar := by
  refine ⟨?_, ?_, ?_⟩
  · rw [show mkFar.screenX = 0 from rfl, show mkFar.screenY = 0 from rfl,
      show mkFar.radius = 10 from rfl, show mkFar.flattenY = 1 from rfl]
    norm_num
  · rw [setMarkers_mk, testPoint, List.find?]
    rw [isPointInMarker_mk mkNear rfl rfl rfl rfl]
  · intro h
    have := congrArg Marker.id h
    simp only [mkNear, mkFar] at this
    exact absurd this (by decide)

/-- C6 (amended): for a marker with positive radius and positive flatten
ratio, a point strictly inside its rendered ellipse always produces a hit:
`testPoint` returns some marker whose hit region contains the point; and it
returns that very marker whenever it is the only held marker containing the
point.  (When several overlapping markers contain the point, the near-to-far
sort makes the nearest one win, as in the counterexample.) -/
theorem C6_hit_inside (ms : List Marker) (m : Marker) (x y : ℝ)
    (hmem : m ∈ ms) (hr : 0 < m.radius) (hf : 0 < m.flattenY)
    (hin : ((x - m.screenX) / m.radius) ^ 2
        + ((y - m.screenY) / (m.radius * m.flattenY)) ^ 2 < 1) :
    (∃ hit, testPoint (setMarkers ms) x y = some hit
        ∧ isPointInMarker x y hit = true) ∧
    ((∀ mo ∈ ms, isPointInMarker x y mo = true → mo = m)
        → testPoint (setMarkers ms) x y = some m) := by
  have hpm : isPointInMarker x y m = true := by
    rw [isPointInMarker, HIT_RADIUS_MULTIPLIER, if_neg hf.ne', decide_eq_true_eq]
    rw [show m.radius * (1.0 : ℝ) = m.radius by norm_num]
    rw [← pow_two ((x - m.screenX) / m.radius),
      ← pow_two ((y - m.screenY) / (m.radius * m.flattenY))]
    exact hin.le
  have hmem' : m ∈ setMarkers ms := by
    rw [setMarkers]
    exact (List.mem_insertionSort _).mpr hmem
  have hsome : (List.find? (fun marker => isPointInMarker x y marker)
      (setMarkers ms)).isSome := by
    rw [List.find?_isSome]
    exact ⟨m, hmem', hpm⟩
  obtain ⟨hit, hhit⟩ := Option.isSome_iff_exists.mp hsome
  have hph : isPointInMarker x y hit = true := by
    have := List.find?_some hhit
    simpa using this
  refine ⟨⟨hit, hhit, hph⟩, fun huniq => ?_⟩
  have hhitmem : hit ∈ ms := by
    have hin' := List.mem_of_find?_eq_some hhit
    rw [setMarkers] at hin'
    exact (List.mem_insertionSort _).mp hin'
  rw [testPoint, hhit, huniq hit hhitmem hph]

/-- C6 witness: with `mkNear` as the only held marker and the origin strictly
inside its ellipse, the amended theorem reports `mkNear` itself as the hit. -/
theorem C6_hit_inside_witness :
    testPoint (setMarkers [mkNear]) 0 0 = some mkNear := by
  refine (C6_hit_inside [mkNear] mkNear 0 0 (List.mem_singleton.mpr rfl) ?_ ?_ ?_).2 ?_
  · rw [show mkNear.radius = 10 from rfl]
    norm_num
  · rw [show mkNear.flattenY = 1 from rfl]
    norm_num
  · rw [show mkNear.screenX = 0 from rfl, show mkNear.screenY = 0 from rfl,
      show mkNear.radius = 10 from rfl, show mkNear.flattenY = 1 from rfl]
    norm_num
  · intro mo hmo _
    exact List.mem_singleton.mp hmo

/-! ## Central state: override resolution (`state.js`) -/

/-- Target override record: per-field nullable `{bearing, distance, height}`;
the "cleared" sentinel is `bearing` and `distance` both null. -/
structure Override where
  bearing : Option ℝ
  distance : Option ℝ
  height : Option ℝ

/-- `getEffectiveOverride` (state.js lines 1213-1228): edited value if the
edited map has the key — resolving the all-null "cleared" sentinel to null —
else the original value if present, else null.  The two `Map`s are modelled
as association lists keyed by target id. -/
def getEffectiveOverride (editedTargetOverrides originalTargetOverrides :
    List (String × Override)) (targetId : String) : Option Override :=
  match editedTargetOverrides.lookup targetId with
  | some edited =>
      if edited.bearing = none ∧ edited.distance = none then none
      else some edited
  | none => originalTargetOverrides.lookup targetId

/-! ## C3: effective override resolution -/

/-- C3: for every combination of an original override `A` (present or
absent) and an edited override `B` (present, absent, or the cleared sentinel
with both `bearing` and `distance` null), `getEffectiveOverride` returns
`B` when an edit is present — the cleared sentinel resolving to null — else
`A` when an original is present, else null. -/
theorem C3_effective_override (edited original : List (String × Override)) (tid : String) :
    (∀ e, edited.lookup tid = some e → e.bearing = none → e.distance = none →
        getEffectiveOverride edited original tid = none) ∧
    (∀ e, edited.lookup tid = some e → ¬ (e.bearing = none ∧ e.distance = none) →
        getEffectiveOverride edited original tid = some e) ∧
    (edited.lookup tid = none → ∀ a, original.lookup tid = some a →
        getEffectiveOverride edited original tid = some a) ∧
    (edited.lookup tid = none → original.lookup tid = none →
        getEffectiveOverride edited original tid = none) := by
  refine ⟨fun e he hb hd => ?_, fun e he hne => ?_, fun he a ha => ?_, fun he ha => ?_⟩
  · simp only [getEffectiveOverride, he, if_pos (And.intro hb hd)]
  · simp only [getEffectiveOverride, he]
    rw [if_neg hne]
  · simp only [getEffectiveOverride, he, ha]
  · simp only [getEffectiveOverride, he, ha]

/-- Concrete cleared-sentinel override. -/
def ovCleared : Override := ⟨none, none, none⟩

/-- Concrete set override `{bearing: 90, distance: 5, height: 0}`. -/
def ovSet : Override := ⟨some 90, some 5, some 0⟩

/-- C3 witness: the theorem applied to the four concrete combinations —
cleared edit shadowing an original, set edit alone, original alone, and
neither. -/
theorem C3_effective_override_witness :
    getEffectiveOverride [("t", ovCleared)] [("t", ovSet)] "t" = none ∧
    getEffectiveOverride [("t", ovSet)] [] "t" = some ovSet ∧
    getEffectiveOverride [] [("t", ovSet)] "t" = some ovSet ∧
    getEffectiveOverride [] [] "t" = none := by
  refine ⟨(C3_effective_override [("t", ovCleared)] [("t", ovSet)] "t").1 ovCleared rfl rfl rfl,
    (C3_effective_override [("t", ovSet)] [] "t").2.1 ovSet rfl ?_,
    (C3_effective_override [] [("t", ovSet)] "t").2.2.1 rfl ovSet rfl,
    (C3_effective_override [] [] "t").2.2.2 rfl rfl⟩
  intro h
  exact Option.some_ne_none 90 (by exact h.1 : ovSet.bearing = none)

/-! ## Camera config and perspective sizing (`projector.js` lines 241-297) -/

/-- CameraConfig: per-photo camera metadata (the fields this core reads);
nullable fields are `Option` to model the JS `?? default` fallbacks. -/
structure CameraConfig where
  lon : ℝ
  lat : ℝ
  heading : Option ℝ := none
  height : Option ℝ := none
  distance_scale : Option ℝ := none
  marker_scale : Option ℝ := none

/-- `this.cameraConfig?.height ?? NAV_CONSTANTS.DEFAULT_CAMERA_HEIGHT`. -/
def cfgHeight (cfg : Option CameraConfig) : ℝ :=
  match cfg with
  | some c => c.height.getD DEFAULT_CAMERA_HEIGHT
  | none => DEFAULT_CAMERA_HEIGHT

/-- `this.cameraConfig?.marker_scale ?? 1.0`. -/
def cfgMarkerScale (cfg : Option CameraConfig) : ℝ :=
  match cfg with
  | some c => c.marker_scale.getD 1.0
  | none => 1.0

/-- `StreetViewProjector.calculateFlattenRatio` (projector.js lines 241-253):
`h / sqrt(h² + d²)` with `d = max(0.1, horizontalDistance)`, corrected by
`1 - |cos pitch| * (1 - base)` and clamped to `[0.15, 0.9]`. -/
def calculateFlattenRatio (cfg : Option CameraConfig) (horizontalDistance pitch : ℝ) : ℝ :=
  let h := cfgHeight cfg
  let d := max 0.1 horizontalDistance
  let baseFlatten := h / Real.sqrt (h * h + d * d)
  let pitchFactor := |Real.cos pitch|
  let flattenRatio := 1 - pitchFactor * (1 - baseFlatten)
  max 0.15 (min 0.9 flattenRatio)

/-- `StreetViewProjector.focalLength` (projector.js lines 276-279):
`(canvasHeight / 2) / tan(fovRad / 2)`. -/
def focalLength (H fov : ℝ) : ℝ := (H / 2) / tanHalfFov fov

/-- `StreetViewProjector.calculateMarkerSize` (projector.js lines 289-297):
physically based size `worldRadius * markerScale * focal / slant`, slant
floored at `0.5`, clamped to `[MARKER_MIN_SIZE, MARKER_MAX_SIZE]`. -/
def calculateMarkerSize (cfg : Option CameraConfig) (H worldRadius horizontalDistance fov : ℝ) :
    ℝ :=
  let cameraHeight := cfgHeight cfg
  let markerScale := cfgMarkerScale cfg
  let slant := Real.sqrt (horizontalDistance * horizontalDistance + cameraHeight * cameraHeight)
  let d := max 0.5 slant
  let f := focalLength H fov
  let size := worldRadius * markerScale * f / d
  max MARKER_MIN_SIZE (min MARKER_MAX_SIZE size)

/-! ## Orchestrator target projection (`part_000` lines 339-493) -/

/-- Target record: a navigation target of the current photo (the fields the
orchestrator reads). -/
structure Target where
  id : String
  lon : ℝ
  lat : ℝ
  next : Bool := false
  display_name : Option String := none

/-- `target.display_name || target.id.slice(0, 8)` with JS string falsiness
(the empty string also falls back). -/
def displayNameOf (t : Target) : String :=
  match t.display_name with
  | some s => if s = "" then t.id.take 8 else s
  | none => t.id.take 8

/-- `isTargetHidden` (state.js lines 1099-1101):
`state.editedTargetHidden.get(targetId) ?? false`, map as association list. -/
def isTargetHidden (editedTargetHidden : List (String × Bool)) (targetId : String) : Bool :=
  (editedTargetHidden.lookup targetId).getD false

/-- `projectFromOverride` (part_000 lines 410-448): converts bearing +
ground distance to ground-plane `(x, z)`, places the point at
`y = -cameraHeight + overrideHeight`, projects with the same
`metersToScreen` as geographic targets, and builds the marker.  The JS call
sites pass extra trailing arguments to `calculateMarkerSize` /
`calculateFlattenRatio` which those functions ignore. -/
def projectFromOverride (W H : ℝ) (cfg : Option CameraConfig) (selectedId : Option String)
    (hidden : String → Bool) (bearingDeg groundDistance : ℝ) (target : Target)
    (yaw pitch fov overrideHeight : ℝ) : Option Marker :=
  match cfg with
  | none => none
  | some _ =>
    let headingRad := bearingDeg * π / 180
    let x := Real.sin headingRad * groundDistance
    let z := -Real.cos headingRad * groundDistance
    let cameraHeight := cfgHeight cfg
    let y := -cameraHeight + overrideHeight
    let horizontalDistance := groundDistance
    let projected := metersToScreen W H x y z yaw pitch fov
    if projected.visible = false then none
    else some
      { id := target.id
        screenX := projected.screenX
        screenY := projected.screenY
        distance := projected.distance
        radius := calculateMarkerSize cfg H MARKER_WORLD_RADIUS horizontalDistance fov
        flattenY := calculateFlattenRatio cfg horizontalDistance pitch
        isNext := target.next
        hasOverride := true
        isCalibrationSelected := decide (selectedId = some target.id)
        isHidden := hidden target.id
        displayName := displayNameOf target }

/-- Geographic projection path of `projectTarget` (part_000 lines 355-393):
lon/lat to local meters, scaled by `distance_scale`, placed at
`y = -cameraHeight`, projected and built into a marker.  `hasOverride`
records whether a (bearing-null) effective override object existed. -/
def projectTargetGeographic (W H : ℝ) (c : CameraConfig) (selectedId : Option String)
    (hidden : String → Bool) (hasOverride : Bool) (target : Target) (yaw pitch fov : ℝ) :
    Option Marker :=
  let m := lonLatToMeters target.lon target.lat c.lon c.lat
  let distanceScale := c.distance_scale.getD 1.0
  let x := m.1 * distanceScale
  let z := m.2 * distanceScale
  let cameraHeight := c.height.getD DEFAULT_CAMERA_HEIGHT
  let y := -cameraHeight
  let horizontalDistance := Real.sqrt (x * x + z * z)
  let projected := metersToScreen W H x y z yaw pitch fov
  if projected.visible = false then none
  else some
    { id := target.id
      screenX := projected.screenX
      screenY := projected.screenY
      distance := projected.distance
      radius := calculateMarkerSize (some c) H MARKER_WORLD_RADIUS horizontalDistance fov
      flattenY := calculateFlattenRatio (some c) horizontalDistance pitch
      isNext := target.next
      hasOverride := hasOverride
      isCalibrationSelected := decide (selectedId = some target.id)
      isHidden := hidden target.id
      displayName := displayNameOf target }

/-- `projectTarget` (part_000 lines 339-394): resolves the effective
override; when it exists with non-null bearing, projects from
`{bearing, distance ?? 5, height ?? 0}`; otherwise takes the geographic
path. -/
def projectTarget (W H : ℝ) (cfg : Option CameraConfig)
    (edited original : List (String × Override)) (selectedId : Option String)
    (hidden : String → Bool) (target : Target) (yaw pitch fov : ℝ) : Option Marker :=
  match cfg with
  | none => none
  | some c =>
    match getEffectiveOverride edited original target.id with
    | some ov =>
      match ov.bearing with
      | some b =>
          projectFromOverride W H cfg selectedId hidden b (ov.distance.getD 5) target
            yaw pitch fov (ov.height.getD 0)
      | none => projectTargetGeographic W H c selectedId hidden true target yaw pitch fov
    | none => projectTargetGeographic W H c selectedId hidden false target yaw pitch fov

/-- Nearby (unconnected) photo record. -/
structure NearbyPhoto where
  id : String
  lon : ℝ
  lat : ℝ
  displayName : Option String := none

/-- `projectNearbyPhoto` (part_000 lines 458-493): identical to the
geographic target path but tagged `type = "nearby"` and without the
calibration metadata. -/
def projectNearbyPhoto (W H : ℝ) (cfg : Option CameraConfig) (photo : NearbyPhoto)
    (yaw pitch fov : ℝ) : Option Marker :=
  match cfg with
  | none => none
  | some c =>
    let m := lonLatToMeters photo.lon photo.lat c.lon c.lat
    let distanceScale := c.distance_scale.getD 1.0
    let x := m.1 * distanceScale
    let z := m.2 * distanceScale
    let cameraHeight := c.height.getD DEFAULT_CAMERA_HEIGHT
    let y := -cameraHeight
    let horizontalDistance := Real.sqrt (x * x + z * z)
    let projected := metersToScreen W H x y z yaw pitch fov
    if projected.visible = false then none
    else some
      { id := photo.id
        screenX := projected.screenX
        screenY := projected.screenY
        distance := projected.distance
        radius := calculateMarkerSize (some c) H MARKER_WORLD_RADIUS horizontalDistance fov
        flattenY := calculateFlattenRatio (some c) horizontalDistance pitch
        mtype := "nearby"
        displayName := match photo.displayName with
          | some s => if s = "" then photo.id.take 8 else s
          | none => photo.id.take 8 }

/-! ## C7: override path equals direct projection path -/

/-- C7: for every camera orientation, a target with effective override
`{bearing: 90, distance: 5, height: 0}` projects through
`projectFromOverride` to exactly the screen coordinates of the equivalent
ground point `(x, z) = (5, 0)` at `y = -cameraHeight` projected directly by
`metersToScreen` — and the override marker exists exactly when that direct
projection is visible. -/
theorem C7_override_geo_equiv (W H : ℝ) (c : CameraConfig) (selectedId : Option String)
    (hidden : String → Bool) (target : Target) (yaw pitch fov : ℝ) :
    ((metersToScreen W H 5 (-(cfgHeight (some c))) 0 yaw pitch fov).visible = true →
      (projectFromOverride W H (some c) selectedId hidden 90 5 target yaw pitch fov 0).map
          Marker.screenX
        = some (metersToScreen W H 5 (-(cfgHeight (some c))) 0 yaw pitch fov).screenX ∧
      (projectFromOverride W H (some c) selectedId hidden 90 5 target yaw pitch fov 0).map
          Marker.screenY
        = some (metersToScreen W H 5 (-(cfgHeight (some c))) 0 yaw pitch fov).screenY) ∧
    ((metersToScreen W H 5 (-(cfgHeight (some c))) 0 yaw pitch fov).visible = false →
      projectFromOverride W H (some c) selectedId hidden 90 5 target yaw pitch fov 0 = none) := by
  have hang : (90 : ℝ) * π / 180 = π / 2 := by ring
  have hx : Real.sin ((90 : ℝ) * π / 180) * 5 = 5 := by
    rw [hang, Real.sin_pi_div_two, one_mul]
  have hz : -Real.cos ((90 : ℝ) * π / 180) * 5 = 0 := by
    rw [hang, Real.cos_pi_div_two, neg_zero, zero_mul]
  have hy : -cfgHeight (some c) + 0 = -cfgHeight (some c) := add_zero _
  have hpf : projectFromOverride W H (some c) selectedId hidden 90 5 target yaw pitch fov 0
      = if (metersToScreen W H 5 (-cfgHeight (some c)) 0 yaw pitch fov).visible = false
        then none
        else some
          { id := target.id
            screenX := (metersToScreen W H 5 (-cfgHeight (some c)) 0 yaw pitch fov).screenX
            screenY := (metersToScreen W H 5 (-cfgHeight (some c)) 0 yaw pitch fov).screenY
            distance := (metersToScreen W H 5 (-cfgHeight (some c)) 0 yaw pitch fov).distance
            radius := calculateMarkerSize (some c) H MARKER_WORLD_RADIUS 5 fov
            flattenY := calculateFlattenRatio (some c) 5 pitch
            isNext := target.next
            hasOverride := true
            isCalibrationSelected := decide (selectedId = some target.id)
            isHidden := hidden target.id
            displayName := displayNameOf target } := by
    simp only [projectFromOverride]
    rw [hx, hz, hy]
  constructor
  · intro hvis
    rw [hpf, if_neg (by rw [hvis]; simp)]
    exact ⟨rfl, rfl⟩
  · intro hinvis
    rw [hpf, if_pos hinvis]

/-- Concrete camera config at the origin with height 2.5 m, used by the
concrete C5 and C7 instances. -/
def cfgEx : CameraConfig := { lon := 0, lat := 0, height := some 2.5 }

/-- Concrete target at the camera position (its geographic fields are not
used by the override path). -/
def tgtEx : Target := { id := "t", lon := 0, lat := 0 }

/-- C7 witness: with the camera turned due east (`yaw = -π/2`), the
`(5, 0)` ground point is visible and the override marker's screen
coordinates agree with the direct projection. -/
theorem C7_override_geo_equiv_witness :
    (projectFromOverride 600 600 (some cfgEx) none (fun _ => false) 90 5 tgtEx (-(π / 2)) 0 90
        0).map Marker.screenX
      = some (metersToScreen 600 600 5 (-(cfgHeight (some cfgEx))) 0 (-(π / 2)) 0 90).screenX ∧
    (projectFromOverride 600 600 (some cfgEx) none (fun _ => false) 90 5 tgtEx (-(π / 2)) 0 90
        0).map Marker.screenY
      = some (metersToScreen 600 600 5 (-(cfgHeight (some cfgEx))) 0 (-(π / 2)) 0 90).screenY := by
  have hch : cfgHeight (some cfgEx) = 2.5 := rfl
  have htan : tanHalfFov 90 = 1 := by
    rw [tanHalfFov, show (90 : ℝ) * π / 180 / 2 = π / 4 by ring, Real.tan_pi_div_four]
  have h1 : camRotatedZ 5 0 (-(π / 2)) = -5 := by
    rw [camRotatedZ, Real.sin_neg, Real.sin_pi_div_two]
    norm_num
  have h2 : camRotatedX 5 0 (-(π / 2)) = 0 := by
    rw [camRotatedX, Real.cos_neg, Real.cos_pi_div_two]
    norm_num
  have h3 : camRotatedY 5 (-(2.5 : ℝ)) 0 (-(π / 2)) 0 = -2.5 := by
    rw [camRotatedY, h1, neg_zero, Real.cos_zero, Real.sin_zero]
    norm_num
  have h4 : camFinalZ 5 (-(2.5 : ℝ)) 0 (-(π / 2)) 0 = -5 := by
    rw [camFinalZ, h1, neg_zero, Real.cos_zero, Real.sin_zero]
    norm_num
  have hndcX : projNdcX 600 600 5 (-(2.5 : ℝ)) 0 (-(π / 2)) 0 90 = 0 := by
    rw [projNdcX, h2, zero_div]
  have hndcY : projNdcY 600 600 5 (-(2.5 : ℝ)) 0 (-(π / 2)) 0 90 = -0.5 := by
    rw [projNdcY, h3, h4, htan]
    norm_num
  have hvis : (metersToScreen 600 600 5 (-cfgHeight (some cfgEx)) 0 (-(π / 2)) 0 90).visible
      = true := by
    rw [hch, metersToScreen, h1, if_neg (by norm_num : ¬ ((0 : ℝ) ≤ -5)), if_neg]
    rw [hndcX, hndcY, FOV_MARGIN, not_or]
    constructor <;> rw [not_lt] <;> rw [abs_le] <;> constructor <;> norm_num
  exact (C7_override_geo_equiv 600 600 cfgEx none (fun _ => false) tgtEx (-(π / 2)) 0 90).1 hvis

/-! ## Ground cursor and nearest-to-cursor (`part_000` lines 276-329, 581-605) -/

/-- `Math.atan2(y, x)` modelled with `Real.arctan` branch corrections. -/
def atan2 (y x : ℝ) : ℝ :=
  if 0 < x then Real.arctan (y / x)
  else if x < 0 then
    (if 0 ≤ y then Real.arctan (y / x) + π else Real.arctan (y / x) - π)
  else
    (if 0 < y then π / 2 else if y < 0 then -(π / 2) else 0)

/-- GroundCursor record (part_000 lines 321-328). -/
structure GroundCursor where
  screenX : ℝ
  screenY : ℝ
  flattenY : ℝ
  arrowAngle : Option ℝ
  distance : ℝ
  fov : ℝ

/-- Straight Euclidean distance in local meters between a target's
local-meters position and a ground point (part_000 lines 589-596,
`dist = sqrt(dx*dx + dz*dz)`; note no `distance_scale` is applied here). -/
def targetCursorDist (c : CameraConfig) (t : Target) (g : ℝ × ℝ) : ℝ :=
  Real.sqrt (((lonLatToMeters t.lon t.lat c.lon c.lat).1 - g.1)
      * ((lonLatToMeters t.lon t.lat c.lon c.lat).1 - g.1)
    + ((lonLatToMeters t.lon t.lat c.lon c.lat).2 - g.2)
      * ((lonLatToMeters t.lon t.lat c.lon c.lat).2 - g.2))

/-- Loop body of `findNearestTargetToCursor` (part_000 lines 587-602): skip
hidden targets, keep the strictly nearer of accumulator and current. -/
def nearestStep (c : CameraConfig) (hidden : String → Bool) (g : ℝ × ℝ)
    (acc : Option (Target × ℝ)) (target : Target) : Option (Target × ℝ) :=
  if hidden target.id then acc
  else
    match acc with
    | none => some (target, targetCursorDist c target g)
    | some (_, bestDist) =>
        if targetCursorDist c target g < bestDist then
          some (target, targetCursorDist c target g)
        else acc

/-- `findNearestTargetToCursor` (part_000 lines 581-605): linear scan over
the targets with `nearestDist` starting at `Infinity` (so the first
non-hidden target always becomes the accumulator; ties keep the earlier
target), skipping hidden targets only. -/
def findNearestTargetToCursor (cfg : Option CameraConfig) (hidden : String → Bool)
    (targets : List Target) (cursorGround : ℝ × ℝ) : Option Target :=
  match cfg with
  | none => none
  | some c =>
    if targets.isEmpty then none
    else (targets.foldl (nearestStep c hidden cursorGround) none).map Prod.fst

/-- `updateGroundCursor` (part_000 lines 280-329), as a function returning
the ground-cursor value handed to the renderer and the new
`cursorNearestTargetId`.  Skipped entirely when a marker is hovered; null
cursor when the mouse ray misses the ground. -/
def updateGroundCursor (W H : ℝ) (cfg : Option CameraConfig) (hidden : String → Bool)
    (targets : List Target) (markers : List Marker) (hoveredId : Option String)
    (mouseX mouseY yaw pitch fov : ℝ) : Option GroundCursor × Option String :=
  if hoveredId ≠ none then (none, none)
  else
    match screenToGround W H (cfgHeight cfg) mouseX mouseY yaw pitch fov with
    | none => (none, none)
    | some ground =>
      let cursorDistance := Real.sqrt (ground.1 * ground.1 + ground.2 * ground.2)
      let flattenY := calculateFlattenRatio cfg cursorDistance pitch
      let nearestTarget := findNearestTargetToCursor cfg hidden targets ground
      let arrowAngle :=
        match nearestTarget with
        | none => none
        | some nt =>
          match markers.find? (fun m => m.id == nt.id) with
          | none => none
          | some pm => some (atan2 (pm.screenX - mouseX) (-(pm.screenY - mouseY)))
      (some { screenX := mouseX, screenY := mouseY, flattenY := flattenY,
              arrowAngle := arrowAngle, distance := cursorDistance, fov := fov },
       nearestTarget.map Target.id)

/-! ## C5: cursor-nearest target -/

/-- Step analysis of `nearestStep` for a non-hidden target. -/
lemma nearestStep_spec (c : CameraConfig) (hidden : String → Bool) (g : ℝ × ℝ)
    (acc : Option (Target × ℝ)) (a : Target) (ha : ¬ hidden a.id) :
    ∃ q, nearestStep c hidden g acc a = some q ∧
      q.2 ≤ targetCursorDist c a g ∧
      (∀ r, acc = some r → q.2 ≤ r.2) ∧
      (acc = some q ∨ (q.1 = a ∧ q.2 = targetCursorDist c a g)) := by
  match acc with
  | none =>
      refine ⟨(a, targetCursorDist c a g), ?_, le_refl _, ?_, Or.inr ⟨rfl, rfl⟩⟩
      · rw [nearestStep.eq_def, if_neg ha]
      · intro r hr
        cases hr
  | some (t0, bd) =>
      by_cases hlt : targetCursorDist c a g < bd
      · refine ⟨(a, targetCursorDist c a g), ?_, le_refl _, fun r hr => ?_,
          Or.inr ⟨rfl, rfl⟩⟩
        · rw [nearestStep.eq_def, if_neg ha]
          show (if targetCursorDist c a g < bd then _ else _) = _
          rw [if_pos hlt]
        · obtain rfl : (t0, bd) = r := by injection hr
          exact hlt.le
      · refine ⟨(t0, bd), ?_, not_lt.mp hlt, fun r hr => ?_, Or.inl rfl⟩
        · rw [nearestStep.eq_def, if_neg ha]
          show (if targetCursorDist c a g < bd then _ else _) = _
          rw [if_neg hlt]
        · obtain rfl : (t0, bd) = r := by injection hr
          exact le_refl _

/-- If the fold comes back empty, the accumulator was empty and every target
in the list is hidden. -/
lemma nearestStep_foldl_none (c : CameraConfig) (hidden : String → Bool) (g : ℝ × ℝ) :
    ∀ (ts : List Target) (acc : Option (Target × ℝ)),
      ts.foldl (nearestStep c hidden g) acc = none →
      acc = none ∧ ∀ u ∈ ts, hidden u.id = true
  | [], acc, h => by
    simp only [List.foldl_nil] at h
    exact ⟨h, fun u hu => absurd hu (List.not_mem_nil u)⟩
  | a :: ts, acc, h => by
    rw [List.foldl_cons] at h
    obtain ⟨hstep, hts⟩ := nearestStep_foldl_none c hidden g ts _ h
    by_cases ha : hidden a.id
    · have : nearestStep c hidden g acc a = acc := by rw [nearestStep.eq_def, if_pos ha]
      rw [this] at hstep
      refine ⟨hstep, fun u hu => ?_⟩
      rcases List.mem_cons.mp hu with rfl | hu'
      · exact ha
      · exact hts u hu'
    · obtain ⟨q, hq, -⟩ := nearestStep_spec c hidden g acc a ha
      rw [hq] at hstep
      cases hstep

/-- Fold invariant for `findNearestTargetToCursor`: a `some` result carries
the distance of its own target, is non-hidden (assuming the accumulator is
sound), is at least as near as every non-hidden target scanned and as the
accumulator, and comes from the accumulator or the list. -/
lemma nearestStep_foldl_spec (c : CameraConfig) (hidden : String → Bool) (g : ℝ × ℝ) :
    ∀ (ts : List Target) (acc : Option (Target × ℝ)),
      (∀ p, acc = some p → p.2 = targetCursorDist c p.1 g ∧ hidden p.1.id = false) →
      ∀ p, ts.foldl (nearestStep c hidden g) acc = some p →
        (p.2 = targetCursorDist c p.1 g ∧ hidden p.1.id = false) ∧
        (∀ u ∈ ts, hidden u.id = false → p.2 ≤ targetCursorDist c u g) ∧
        (∀ q, acc = some q → p.2 ≤ q.2) ∧
        (acc = some p ∨ p.1 ∈ ts)
  | [], acc, hacc, p, hp => by
    simp only [List.foldl_nil] at hp
    refine ⟨hacc p hp, fun u hu => absurd hu (List.not_mem_nil u), fun q hq => ?_, Or.inl hp⟩
    rw [hp] at hq
    obtain rfl : p = q := by injection hq
    exact le_refl _
  | a :: ts, acc, hacc, p, hp => by
    rw [List.foldl_cons] at hp
    by_cases ha : hidden a.id
    · have hstep : nearestStep c hidden g acc a = acc := by rw [nearestStep.eq_def, if_pos ha]
      rw [hstep] at hp
      obtain ⟨h1, h2, h3, h4⟩ := nearestStep_foldl_spec c hidden g ts acc hacc p hp
      refine ⟨h1, fun u hu hun => ?_, h3, ?_⟩
      · rcases List.mem_cons.mp hu with rfl | hu'
        · rw [ha] at hun
          cases hun
        · exact h2 u hu' hun
      · rcases h4 with h | h
        · exact Or.inl h
        · exact Or.inr (List.mem_cons_of_mem a h)
    · obtain ⟨q, hq, hqa, hqacc, hqsrc⟩ := nearestStep_spec c hidden g acc a ha
      rw [hq] at hp
      have haccq : ∀ r, some q = some r → r.2 = targetCursorDist c r.1 g
          ∧ hidden r.1.id = false := by
        intro r hr
        cases hr
        rcases hqsrc with hold | ⟨he1, he2⟩
        · exact hacc q hold
        · constructor
          · rw [he2, he1]
          · rw [he1]
            simpa using ha
      obtain ⟨h1, h2, h3, h4⟩ := nearestStep_foldl_spec c hidden g ts (some q) haccq p hp
      have hple : p.2 ≤ q.2 := h3 q rfl
      refine ⟨h1, fun u hu hun => ?_, fun r hr => ?_, ?_⟩
      · rcases List.mem_cons.mp hu with rfl | hu'
        · exact hple.trans hqa
        · exact h2 u hu' hun
      · exact hple.trans (hqacc r hr)
      · rcases h4 with hsome | hmem
        · obtain rfl : q = p := by injection hsome
          rcases hqsrc with hold | ⟨he1, _⟩
          · exact Or.inl hold
          · refine Or.inr ?_
            rw [he1]
            exact List.mem_cons_self a ts
        · exact Or.inr (List.mem_cons_of_mem a hmem)

/-- Shared evaluation: `tanHalfFov 90 = tan (π/4) = 1`. -/
lemma tanHalfFov_90 : tanHalfFov 90 = 1 := by
  rw [tanHalfFov, show (90 : ℝ) * π / 180 / 2 = π / 4 by ring, Real.tan_pi_div_four]

/-- C5 (amended): whatever target `findNearestTargetToCursor` tracks is a
non-hidden member of the target list minimizing the straight Euclidean
distance in local meters to the ground point — over all non-hidden targets,
with no screen-visibility filter; and an empty result means every target is
hidden. -/
theorem C5_cursor_nearest_minimal (c : CameraConfig) (hidden : String → Bool)
    (targets : List Target) (g : ℝ × ℝ) :
    (∀ t, findNearestTargetToCursor (some c) hidden targets g = some t →
      t ∈ targets ∧ hidden t.id = false ∧
      ∀ u ∈ targets, hidden u.id = false →
        targetCursorDist c t g ≤ targetCursorDist c u g) ∧
    (findNearestTargetToCursor (some c) hidden targets g = none →
      ∀ u ∈ targets, hidden u.id = true) := by
  constructor
  · intro t ht
    simp only [findNearestTargetToCursor] at ht
    by_cases hemp : targets.isEmpty
    · rw [if_pos hemp] at ht
      cases ht
    · rw [if_neg hemp, Option.map_eq_some'] at ht
      obtain ⟨p, hp, hpt⟩ := ht
      obtain ⟨⟨hd, hnh⟩, hmin, -, hsrc⟩ :=
        nearestStep_foldl_spec c hidden g targets none (fun q hq => nomatch hq) p hp
      subst hpt
      rcases hsrc with hnone | hmem
      · cases hnone
      · exact ⟨hmem, hnh, fun u hu hun => hd ▸ hmin u hu hun⟩
  · intro hnone
    simp only [findNearestTargetToCursor] at hnone
    by_cases hemp : targets.isEmpty
    · intro u hu
      rw [List.isEmpty_iff] at hemp
      rw [hemp] at hu
      exact absurd hu (List.not_mem_nil u)
    · rw [if_neg hemp, Option.map_eq_none'] at hnone
      exact (nearestStep_foldl_none c hidden g targets none hnone).2

/-- Concrete target 10 m due north of the origin camera
(local meters `(0, -10)`; in front of the camera at `yaw = 0`). -/
def tgtA : Target := { id := "A", lon := 0, lat := 1800 / (π * 6371000) }

/-- Concrete target 2 m due south (local meters `(0, 2)`; behind the camera
at `yaw = 0`, hence never visible that frame). -/
def tgtB : Target := { id := "B", lon := 0, lat := -(360 / (π * 6371000)) }

/-- Local-meters X of `tgtA` relative to `cfgEx`. -/
lemma metersA1 : (lonLatToMeters tgtA.lon tgtA.lat cfgEx.lon cfgEx.lat).1 = 0 := by
  show (tgtA.lon - cfgEx.lon) * π / 180 * 6371000 * Real.cos (cfgEx.lat * π / 180) = 0
  rw [show tgtA.lon = (0 : ℝ) from rfl, show cfgEx.lon = (0 : ℝ) from rfl]
  ring

/-- Local-meters Z of `tgtA` relative to `cfgEx`. -/
lemma metersA2 : (lonLatToMeters tgtA.lon tgtA.lat cfgEx.lon cfgEx.lat).2 = -10 := by
  show -((tgtA.lat - cfgEx.lat) * π / 180) * 6371000 = -10
  rw [show tgtA.lat = 1800 / (π * 6371000) from rfl, show cfgEx.lat = (0 : ℝ) from rfl]
  have hpi := Real.pi_ne_zero
  field_simp
  ring

/-- Local-meters X of `tgtB` relative to `cfgEx`. -/
lemma metersB1 : (lonLatToMeters tgtB.lon tgtB.lat cfgEx.lon cfgEx.lat).1 = 0 := by
  show (tgtB.lon - cfgEx.lon) * π / 180 * 6371000 * Real.cos (cfgEx.lat * π / 180) = 0
  rw [show tgtB.lon = (0 : ℝ) from rfl, show cfgEx.lon = (0 : ℝ) from rfl]
  ring

/-- Local-meters Z of `tgtB` relative to `cfgEx`. -/
lemma metersB2 : (lonLatToMeters tgtB.lon tgtB.lat cfgEx.lon cfgEx.lat).2 = 2 := by
  show -((tgtB.lat - cfgEx.lat) * π / 180) * 6371000 = 2
  rw [show tgtB.lat = -(360 / (π * 6371000)) from rfl, show cfgEx.lat = (0 : ℝ) from rfl]
  have hpi := Real.pi_ne_zero
  field_simp
  ring

/-- Distance from the cursor ground point `(0, -3)` to `tgtA`. -/
lemma distA : targetCursorDist cfgEx tgtA (0, -3) = 7 := by
  rw [targetCursorDist, metersA1, metersA2]
  rw [show ((0 : ℝ) - (0, (-3 : ℝ)).1) * (0 - (0, (-3 : ℝ)).1)
      + ((-10 : ℝ) - (0, (-3 : ℝ)).2) * ((-10 : ℝ) - (0, (-3 : ℝ)).2) = 7 ^ 2 by norm_num]
  exact Real.sqrt_sq (by norm_num)

/-- Distance from the cursor ground point `(0, -3)` to `tgtB`. -/
lemma distB : targetCursorDist cfgEx tgtB (0, -3) = 5 := by
  rw [targetCursorDist, metersB1, metersB2]
  rw [show ((0 : ℝ) - (0, (-3 : ℝ)).1) * (0 - (0, (-3 : ℝ)).1)
      + ((2 : ℝ) - (0, (-3 : ℝ)).2) * ((2 : ℝ) - (0, (-3 : ℝ)).2) = 5 ^ 2 by norm_num]
  exact Real.sqrt_sq (by norm_num)

/-- Concrete nearest-to-cursor scan: `tgtB` (5 m from the cursor point)
beats `tgtA` (7 m), hidden-filter off. -/
lemma nearFoldEval :
    findNearestTargetToCursor (some cfgEx) (fun _ => false) [tgtA, tgtB] (0, -3)
      = some tgtB := by
  have s1 : nearestStep cfgEx (fun _ => false) (0, -3) none tgtA = some (tgtA, 7) := by
    rw [nearestStep.eq_def, if_neg (by simp), distA]
  have s2 : nearestStep cfgEx (fun _ => false) (0, -3) (some (tgtA, 7)) tgtB
      = some (tgtB, 5) := by
    rw [nearestStep.eq_def, if_neg (by simp), distB]
    show (if (5 : ℝ) < 7 then _ else _) = _
    rw [if_pos (by norm_num : (5 : ℝ) < 7)]
  show (if ([tgtA, tgtB] : List Target).isEmpty then none
      else (([tgtA, tgtB].foldl (nearestStep cfgEx (fun _ => false) (0, -3)) none).map
        Prod.fst)) = some tgtB
  rw [if_neg (by simp), List.foldl_cons, s1, List.foldl_cons, s2, List.foldl_nil]
  rfl

/-- `screenToGround` at the concrete mouse position `(300, 550)` of a
600×600 canvas with `yaw = pitch = 0`, `fov = 90`, camera height 2.5:
the ground point is `(0, -3)`. -/
lemma s2gEval : screenToGround 600 600 (cfgHeight (some cfgEx)) 300 550 0 0 90
    = some (0, -3) := by
  have hch : cfgHeight (some cfgEx) = 2.5 := rfl
  have hray : groundRayY 600 550 0 90 = -(5 / 6) := by
    rw [groundRayY, tanHalfFov_90, Real.sin_zero, Real.cos_zero]
    norm_num
  have hrayZ1 : groundRayZ1 600 550 0 90 = -1 := by
    rw [groundRayZ1, tanHalfFov_90, Real.sin_zero, Real.cos_zero]
    norm_num
  have hrayX : groundRayX 600 600 300 550 0 0 90 = 0 := by
    rw [groundRayX, hrayZ1, tanHalfFov_90, Real.sin_zero, Real.cos_zero]
    norm_num
  have hrayZ : groundRayZ 600 600 300 550 0 0 90 = -1 := by
    rw [groundRayZ, hrayZ1, tanHalfFov_90, Real.sin_zero, Real.cos_zero]
    norm_num
  rw [screenToGround, hch, hray, hrayX, hrayZ,
    if_neg (by norm_num : ¬ ((0 : ℝ) ≤ -(5 / 6))),
    show -(2.5 : ℝ) / -(5 / 6) = 3 by norm_num,
    if_neg (by norm_num : ¬ ((3 : ℝ) < 0))]
  rw [show ((0 : ℝ) * 3, (-1 : ℝ) * 3) = ((0 : ℝ), (-3 : ℝ)) by
    rw [Prod.mk.injEq]
    constructor <;> norm_num]

/-- The full ground-cursor pass on that frame tracks `tgtB` as
cursor-nearest. -/
lemma ugcEval :
    (updateGroundCursor 600 600 (some cfgEx) (fun _ => false) [tgtA, tgtB] [] none
      300 550 0 0 90).2 = some "B" := by
  rw [updateGroundCursor, if_neg (by simp), s2gEval]
  show (findNearestTargetToCursor (some cfgEx) (fun _ => false) [tgtA, tgtB]
      (0, -3)).map Target.id = some "B"
  rw [nearFoldEval]
  rfl

/-- The all-null-maps effective override of any target is absent, so
`projectTarget` takes the geographic path. -/
lemma projB_none :
    projectTarget 600 600 (some cfgEx) [] [] none (fun _ => false) tgtB 0 0 90 = none := by
  show projectTargetGeographic 600 600 cfgEx none (fun _ => false) false tgtB 0 0 90 = none
  have hrotz : camRotatedZ ((0 : ℝ) * 1.0) ((2 : ℝ) * 1.0) 0 = 2 := by
    rw [camRotatedZ, Real.sin_zero, Real.cos_zero]
    norm_num
  simp only [projectTargetGeographic, metersB1, metersB2,
    show cfgEx.distance_scale.getD 1.0 = 1.0 from rfl,
    show cfgEx.height.getD DEFAULT_CAMERA_HEIGHT = 2.5 from rfl]
  rw [metersToScreen, hrotz, if_pos (by norm_num : (0 : ℝ) ≤ 2), if_pos rfl]

/-- `tgtA` does project to a visible marker on the same frame. -/
lemma projA_some :
    projectTarget 600 600 (some cfgEx) [] [] none (fun _ => false) tgtA 0 0 90 ≠ none := by
  show projectTargetGeographic 600 600 cfgEx none (fun _ => false) false tgtA 0 0 90 ≠ none
  have hrotz : camRotatedZ ((0 : ℝ) * 1.0) ((-10 : ℝ) * 1.0) 0 = -10 := by
    rw [camRotatedZ, Real.sin_zero, Real.cos_zero]
    norm_num
  have hrotx : camRotatedX ((0 : ℝ) * 1.0) ((-10 : ℝ) * 1.0) 0 = 0 := by
    rw [camRotatedX, Real.sin_zero, Real.cos_zero]
    norm_num
  have hroty : camRotatedY ((0 : ℝ) * 1.0) (-(2.5 : ℝ)) ((-10 : ℝ) * 1.0) 0 0 = -2.5 := by
    rw [camRotatedY, hrotz, neg_zero, Real.cos_zero, Real.sin_zero]
    norm_num
  have hfz : camFinalZ ((0 : ℝ) * 1.0) (-(2.5 : ℝ)) ((-10 : ℝ) * 1.0) 0 0 = -10 := by
    rw [camFinalZ, hrotz, neg_zero, Real.cos_zero, Real.sin_zero]
    norm_num
  have hndcX : projNdcX 600 600 ((0 : ℝ) * 1.0) (-(2.5 : ℝ)) ((-10 : ℝ) * 1.0) 0 0 90 = 0 := by
    rw [projNdcX, hrotx, zero_div]
  have hndcY : projNdcY 600 600 ((0 : ℝ) * 1.0) (-(2.5 : ℝ)) ((-10 : ℝ) * 1.0) 0 0 90
      = -0.25 := by
    rw [projNdcY, hroty, hfz, tanHalfFov_90]
    norm_num
  simp only [projectTargetGeographic, metersA1, metersA2,
    show cfgEx.distance_scale.getD 1.0 = 1.0 from rfl,
    show cfgEx.height.getD DEFAULT_CAMERA_HEIGHT = 2.5 from rfl]
  have hmarg : ¬ (1 + FOV_MARGIN / 90
        < |projNdcX 600 600 ((0 : ℝ) * 1.0) (-(2.5 : ℝ)) ((-10 : ℝ) * 1.0) 0 0 90| ∨
      1 + FOV_MARGIN / 90
        < |projNdcY 600 600 ((0 : ℝ) * 1.0) (-(2.5 : ℝ)) ((-10 : ℝ) * 1.0) 0 0 90|) := by
    rw [hndcX, hndcY, FOV_MARGIN, not_or]
    constructor <;> rw [not_lt] <;> rw [abs_le] <;> constructor <;> norm_num
  rw [metersToScreen, hrotz, if_neg (by norm_num : ¬ ((0 : ℝ) ≤ -10)), if_neg hmarg]
  simp

/-- C5 (counterexample): on the concrete frame with camera `cfgEx`, mouse at
`(300, 550)` (ground point `(0, -3)`) and targets `[tgtA, tgtB]`, the
tracked `cursorNearestTargetId` is `"B"` — but `tgtB` projects to no visible
marker this frame (behind the camera), while the visible non-hidden `tgtA`
exists.  The scan minimizes over non-hidden targets only and never checks
visibility, refuting "the visible, non-hidden target that minimizes". -/
theorem C5_cursor_nearest_counterexample :
    (updateGroundCursor 600 600 (some cfgEx) (fun _ => false) [tgtA, tgtB] [] none
      300 550 0 0 90).2 = some tgtB.id ∧
    projectTarget 600 600 (some cfgEx) [] [] none (fun _ => false) tgtB 0 0 90 = none ∧
    projectTarget 600 600 (some cfgEx) [] [] none (fun _ => false) tgtA 0 0 90 ≠ none ∧
    tgtA.id ≠ tgtB.id :=
  ⟨ugcEval, projB_none, projA_some, by decide⟩

/-- C5 witness: the amended minimality theorem applied to the concrete
frame: the tracked `tgtB` is a member, non-hidden, and at least as near to
the cursor ground point as `tgtA`. -/
theorem C5_cursor_nearest_minimal_witness :
    tgtB ∈ [tgtA, tgtB] ∧ (fun _ => false) tgtB.id = false ∧
    targetCursorDist cfgEx tgtB (0, -3) ≤ targetCursorDist cfgEx tgtA (0, -3) := by
  obtain ⟨hmem, hnh, hmin⟩ :=
    (C5_cursor_nearest_minimal cfgEx (fun _ => false) [tgtA, tgtB] (0, -3)).1 tgtB nearFoldEval
  exact ⟨hmem, hnh, hmin tgtA (List.mem_cons_self _ _) rfl⟩

/-! ## Click dispatch (`part_000` lines 617-656) -/

/-- Outcome of a click: which state-mutation callback fires with which
payload; `ClickAction.none` means no callback fires. -/
inductive ClickAction where
  | none
  | setFromClick (bearing distance : ℝ)
  | nearbyClick (id : String)
  | targetSelect (id : String)

/-- handleClick lines 632-635: ground `(x, z)` to a compass bearing in
degrees, normalized to `[0, 360)`. -/
def groundToBearingDeg (g : ℝ × ℝ) : ℝ :=
  if atan2 g.1 (-g.2) * 180 / π < 0 then atan2 g.1 (-g.2) * 180 / π + 360
  else atan2 g.1 (-g.2) * 180 / π

/-- `handleClick` (part_000 lines 617-656).  The overlay canvas is assumed
initialized (its absence is a pure no-op guard); the three callbacks are
modelled as presence flags; `hitMarkers` is the hit tester's stored
(near-sorted) marker list.  In Set-from-click mode with a selected target
the click is intercepted and converted through `screenToGround`; otherwise
it is hit-tested and dispatched by marker type and the preview flag. -/
def handleClick (W H : ℝ) (cfg : Option CameraConfig)
    (setFromClickMode : Bool) (selectedTargetId : Option String)
    (hasSetFromClickCallback hasNearbyClickCallback hasTargetSelectCallback : Bool)
    (nearbyPreviewEnabled : Bool) (hitMarkers : List Marker)
    (canvasX canvasY currentYaw currentPitch currentFov : ℝ) : ClickAction :=
  if setFromClickMode ∧ selectedTargetId ≠ none then
    if hasSetFromClickCallback then
      match screenToGround W H (cfgHeight cfg) canvasX canvasY
          currentYaw currentPitch currentFov with
      | some ground =>
          ClickAction.setFromClick (groundToBearingDeg ground)
            (Real.sqrt (ground.1 * ground.1 + ground.2 * ground.2))
      | Option.none => ClickAction.none
    else ClickAction.none
  else
    match testPoint hitMarkers canvasX canvasY with
    | some hitMarker =>
        if hitMarker.mtype = "nearby" ∧ nearbyPreviewEnabled ∧ hasNearbyClickCallback then
          ClickAction.nearbyClick hitMarker.id
        else if hitMarker.mtype = "navigation" ∧ hasTargetSelectCallback then
          ClickAction.targetSelect hitMarker.id
        else ClickAction.none
    | Option.none => ClickAction.none

/-! ## C2: click in stale Set-from-click mode -/

/-- Concrete navigation marker under the click point. -/
def mkNav : Marker :=
  { id := "n", screenX := 0, screenY := 0, distance := 1, radius := 10, flattenY := 1,
    mtype := "navigation" }

/-- C2 (counterexample): with Set-from-click mode active but no selected
target, a click on a navigation marker is NOT silently ignored — the guard
`setFromClickMode && selectedTargetId` fails and the click falls through to
normal dispatch, invoking the target-selection callback. -/
theorem C2_stale_mode_counterexample :
    handleClick 600 600 (some cfgEx) true Option.none true true true false [mkNav] 0 0 0 0 75
      = ClickAction.targetSelect "n" := by
  rw [handleClick, if_neg (by simp)]
  have hpm : isPointInMarker 0 0 mkNav = true :=
    isPointInMarker_mk mkNav rfl rfl rfl rfl
  rw [show testPoint [mkNav] 0 0 = some mkNav by rw [testPoint, List.find?, hpm]]
  show (if mkNav.mtype = "nearby" ∧ false = true ∧ true = true then
      ClickAction.nearbyClick mkNav.id
    else if mkNav.mtype = "navigation" ∧ true = true then ClickAction.targetSelect mkNav.id
    else ClickAction.none) = ClickAction.targetSelect "n"
  rw [if_neg (by simp [mkNav]), if_pos (by simp [mkNav])]
  rfl

/-- C2 (amended): a click arriving in Set-from-click mode with no selected
target is not intercepted: the set-from-click callback can never fire, and
the click is dispatched exactly as a normal-mode click (hit-test then
selection / nearby callbacks), so it is a no-op only when it hits nothing. -/
theorem C2_stale_mode_fallthrough (W H : ℝ) (cfg : Option CameraConfig)
    (hasS hasN hasT preview : Bool) (hitMarkers : List Marker)
    (cx cy yaw pitch fov : ℝ) :
    handleClick W H cfg true Option.none hasS hasN hasT preview hitMarkers cx cy yaw pitch fov
      = handleClick W H cfg false Option.none hasS hasN hasT preview hitMarkers cx cy
          yaw pitch fov ∧
    ∀ b d, handleClick W H cfg true Option.none hasS hasN hasT preview hitMarkers cx cy
        yaw pitch fov ≠ ClickAction.setFromClick b d := by
  have hguard : ¬ ((true : Bool) = true ∧ (Option.none : Option String) ≠ Option.none) := by
    simp
  have hguard' : ¬ ((false : Bool) = true ∧ (Option.none : Option String) ≠ Option.none) := by
    simp
  constructor
  · rw [handleClick, if_neg hguard, handleClick, if_neg hguard']
  · intro b d
    rw [handleClick, if_neg hguard]
    match testPoint hitMarkers cx cy with
    | some hitMarker =>
        show (if hitMarker.mtype = "nearby" ∧ preview = true ∧ hasN = true then
            ClickAction.nearbyClick hitMarker.id
          else if hitMarker.mtype = "navigation" ∧ hasT = true then
            ClickAction.targetSelect hitMarker.id
          else ClickAction.none) ≠ ClickAction.setFromClick b d
        by_cases h1 : hitMarker.mtype = "nearby" ∧ preview = true ∧ hasN = true
        · rw [if_pos h1]
          exact fun h => by cases h
        · rw [if_neg h1]
          by_cases h2 : hitMarker.mtype = "navigation" ∧ hasT = true
          · rw [if_pos h2]
            exact fun h => by cases h
          · rw [if_neg h2]
            exact fun h => by cases h
    | Option.none =>
        show ClickAction.none ≠ ClickAction.setFromClick b d
        exact fun h => by cases h

/-! ## Ground grid (`part_000` lines 500-572) -/

/-- One projected polyline of the ground grid. -/
structure GridLine where
  points : List (ℝ × ℝ)
  highlight : Bool

/-- The projected ground grid handed to the renderer. -/
structure GroundGrid where
  lines : List GridLine

/-- GROUND_GRID_RINGS (part_000 line 500). -/
def GROUND_GRID_RINGS : List ℝ :=
  [2, 5, 8, 10, 15, 20, 25, 30, 40, 50, 60, 75, 100, 130, 170, 200, 250, 300]

/-- GROUND_GRID_BEARINGS (part_000 line 502): every 10 degrees. -/
def GROUND_GRID_BEARINGS : List ℕ := (List.range 36).map (· * 10)

/-- Segment-building step shared by both grid loops (part_000 lines
530-537 and 557-564): a visible point extends the current run; an invisible
point flushes the run (kept only when it has at least 2 points) and starts
a new one. -/
def polylineStep (highlight : Bool) (acc : List GridLine × List (ℝ × ℝ))
    (p : Option (ℝ × ℝ)) : List GridLine × List (ℝ × ℝ) :=
  match p with
  | some pt => (acc.1, acc.2 ++ [pt])
  | Option.none =>
      if 0 < acc.2.length then
        (if 2 ≤ acc.2.length then acc.1 ++ [⟨acc.2, highlight⟩] else acc.1, [])
      else acc

/-- End-of-loop flush (part_000 lines 539-541 and 566-568). -/
def finishPolyline (highlight : Bool) (acc : List GridLine × List (ℝ × ℝ)) : List GridLine :=
  if 2 ≤ acc.2.length then acc.1 ++ [⟨acc.2, highlight⟩] else acc.1

/-- One ring of the ground grid (part_000 lines 521-542): 72 segments, i.e.
73 sample points around the circle of the given (already scaled) radius. -/
def projectRing (W H groundY yaw pitch fov dist : ℝ) : List GridLine :=
  finishPolyline false ((List.range 73).foldl (fun acc i =>
    let angle := ((i : ℝ) / 72) * π * 2
    let projected := metersToScreen W H (Real.sin angle * dist) groundY
      (-Real.cos angle * dist) yaw pitch fov
    polylineStep false acc
      (if projected.visible then some (projected.screenX, projected.screenY)
       else Option.none)) ([], []))

/-- One radial bearing line (part_000 lines 546-569): 40 samples from the
camera outward to `maxDist`, highlighted on the cardinal bearings
(`bearingDeg % 90 === 0`). -/
def projectBearingLine (W H groundY yaw pitch fov maxDist : ℝ) (bearingDeg : ℕ) :
    List GridLine :=
  finishPolyline (decide (bearingDeg % 90 = 0)) ((List.range 40).foldl (fun acc i =>
    let d := (((i : ℝ) + 1) / 40) * maxDist
    let projected := metersToScreen W H (Real.sin ((bearingDeg : ℝ) * π / 180) * d) groundY
      (-Real.cos ((bearingDeg : ℝ) * π / 180) * d) yaw pitch fov
    polylineStep (decide (bearingDeg % 90 = 0)) acc
      (if projected.visible then some (projected.screenX, projected.screenY)
       else Option.none)) ([], []))

/-- `projectGroundGrid` (part_000 lines 514-572): ring lines at fixed
scaled distances plus 36 radial bearing lines out to the largest ring. -/
def projectGroundGrid (W H : ℝ) (c : CameraConfig) (yaw pitch fov : ℝ) : GroundGrid :=
  let cameraHeight := c.height.getD DEFAULT_CAMERA_HEIGHT
  let distanceScale := c.distance_scale.getD 1.0
  let groundY := -cameraHeight
  let ringLines := GROUND_GRID_RINGS.foldl
    (fun acc rawDist => acc ++ projectRing W H groundY yaw pitch fov (rawDist * distanceScale))
    []
  let maxDist := GROUND_GRID_RINGS.getLastD 0 * distanceScale
  let bearingLines := GROUND_GRID_BEARINGS.foldl
    (fun acc b => acc ++ projectBearingLine W H groundY yaw pitch fov maxDist b) []
  ⟨ringLines ++ bearingLines⟩

/-! ## Per-frame orchestrator update (`part_000` lines 180-270) -/

/-- Orchestrator-side mutable state: the module-level variables of the
navigation orchestrator (part_000 lines 19-49) together with the central
state the frame reads (mode flags and override/hidden maps from state.js).
`initialized` models the `projector`/`navRenderer` null checks (they are
created together by `initNavigator`); the canvas size lives in
`canvasW`/`canvasH`. -/
structure NavState where
  initialized : Bool
  cameraConfig : Option CameraConfig
  targets : List Target
  nearbyPhotos : List NearbyPhoto
  nearbyPreviewEnabled : Bool
  nearestTargetId : Option String
  cursorNearestTargetId : Option String
  groundGridVisible : Bool
  mouseX : ℝ
  mouseY : ℝ
  hoveredId : Option String
  currentYaw : ℝ
  currentPitch : ℝ
  currentFov : ℝ
  hitMarkers : List Marker
  setFromClickMode : Bool
  selectedTargetId : Option String
  editedTargetOverrides : List (String × Override)
  originalTargetOverrides : List (String × Override)
  editedTargetHidden : List (String × Bool)
  canvasW : ℝ
  canvasH : ℝ

/-- Renderer-side state set during a frame (`StreetViewRenderer` setters
called from `update`, plus the container cursor style set by
`refreshCursorStyle`). -/
structure RendererState where
  markers : List Marker
  selectedMarker : Option String
  nearestMarker : Option String
  cursorNearestMarker : Option String
  groundCursor : Option GroundCursor
  groundGrid : Option GroundGrid
  nearbyMarkers : List Marker
  cursorStyle : String

/-- Per-frame `update(cameraState)` (part_000 lines 180-270) as a function
from the old orchestrator/renderer state and the camera payload
`(yaw lonRad, pitch latRad, fov)` to the new states.  A missing camera
config (or uninitialized components) short-circuits to a no-op frame. -/
def update (s : NavState) (r : RendererState) (cameraState : ℝ × ℝ × ℝ) :
    NavState × RendererState :=
  if ¬ s.initialized ∨ s.cameraConfig.isNone then (s, r)
  else
    match s.cameraConfig with
    | Option.none => (s, r)
    | some c =>
      let lonRad := cameraState.1
      let latRad := cameraState.2.1
      let fov := cameraState.2.2
      let lonDeg := lonRad * 180 / π
      let imageHeading := c.heading.getD 0
      let worldHeadingDeg := imageHeading + lonDeg
      let yaw := -(worldHeadingDeg * π) / 180
      let pitch := latRad
      let shouldShowMarkers := HIDE_ARROWS_FOV < fov
      let scaleFactor := if fov ≤ SCALE_ARROWS_FOV
        then (fov - HIDE_ARROWS_FOV) / (SCALE_ARROWS_FOV - HIDE_ARROWS_FOV) else 1
      let hidden := isTargetHidden s.editedTargetHidden
      let markers := if shouldShowMarkers then
          s.targets.filterMap (fun t =>
            (projectTarget s.canvasW s.canvasH s.cameraConfig s.editedTargetOverrides
                s.originalTargetOverrides s.selectedTargetId hidden t yaw pitch fov).map
              (fun m => { m with radius := m.radius * scaleFactor, mtype := "navigation" }))
        else []
      let nearbyMarkers := if shouldShowMarkers ∧ ¬ s.nearbyPhotos.isEmpty then
          s.nearbyPhotos.filterMap (fun p =>
            (projectNearbyPhoto s.canvasW s.canvasH s.cameraConfig p yaw pitch fov).map
              (fun m => { m with radius := m.radius * scaleFactor }))
        else []
      let allHittable := if s.nearbyPreviewEnabled then markers ++ nearbyMarkers else markers
      let hitMarkers := setMarkers allHittable
      let newHoveredId := (testPoint hitMarkers s.mouseX s.mouseY).map Marker.id
      let cursorStyle := if newHoveredId ≠ s.hoveredId then
          (if s.setFromClickMode then "crosshair"
           else if newHoveredId ≠ Option.none then "pointer" else "grab")
        else r.cursorStyle
      let gc := updateGroundCursor s.canvasW s.canvasH s.cameraConfig hidden s.targets
        markers newHoveredId s.mouseX s.mouseY yaw pitch fov
      let grid := if s.groundGridVisible then
          some (projectGroundGrid s.canvasW s.canvasH c yaw pitch fov)
        else Option.none
      ({ s with
          currentYaw := yaw
          currentPitch := pitch
          currentFov := fov
          hoveredId := newHoveredId
          hitMarkers := hitMarkers
          cursorNearestTargetId := gc.2 },
       { r with
          markers := markers
          selectedMarker := Option.none
          nearestMarker := s.nearestTargetId
          cursorNearestMarker := gc.2
          groundCursor := gc.1
          groundGrid := grid
          nearbyMarkers := if s.nearbyPreviewEnabled then nearbyMarkers else []
          cursorStyle := cursorStyle })

/-! ## C9: update with missing camera config is a no-op frame -/

/-- C9: when no camera config has been set, the per-frame `update` is a
no-op: for every camera payload it returns with the entire orchestrator
state (stored yaw/pitch/fov, hovered id, hit-tester marker list, ...) and
the entire renderer state unchanged. -/
theorem C9_update_noop (s : NavState) (r : RendererState) (cs : ℝ × ℝ × ℝ)
    (h : s.cameraConfig = Option.none) : update s r cs = (s, r) := by
  rw [update, if_pos (Or.inr (by rw [h] ; rfl : s.cameraConfig.isNone = true))]

/-- Concrete orchestrator state with no camera config. -/
def navState0 : NavState :=
  { initialized := true, cameraConfig := Option.none, targets := [tgtA],
    nearbyPhotos := [], nearbyPreviewEnabled := false, nearestTargetId := Option.none,
    cursorNearestTargetId := Option.none, groundGridVisible := true, mouseX := 10,
    mouseY := 20, hoveredId := Option.none, currentYaw := 0, currentPitch := 0,
    currentFov := 75, hitMarkers := [], setFromClickMode := false,
    selectedTargetId := Option.none, editedTargetOverrides := [],
    originalTargetOverrides := [], editedTargetHidden := [], canvasW := 800,
    canvasH := 600 }

/-- Concrete renderer state. -/
def rendererState0 : RendererState :=
  { markers := [], selectedMarker := Option.none, nearestMarker := Option.none,
    cursorNearestMarker := Option.none, groundCursor := Option.none,
    groundGrid := Option.none, nearbyMarkers := [], cursorStyle := "grab" }

/-- C9 witness: the no-op theorem at a concrete configless state and frame. -/
theorem C9_update_noop_witness :
    update navState0 rendererState0 (0.3, 0.1, 75) = (navState0, rendererState0) :=
  C9_update_noop navState0 rendererState0 (0.3, 0.1, 75) rfl

end

end EBGeo
